import Mathlib

deriving instance DecidableEq for Except

/-- Equality of rationals decided through the numerator/denominator pair
(the default instance found by search reduces too slowly for closed
evaluations). -/
instance (priority := 2000) ratFastDecEq : DecidableEq ℚ := fun a b =>
  decidable_of_iff (a.num = b.num ∧ a.den = b.den)
    (by constructor
        · rintro ⟨h1, h2⟩
          cases a; cases b; simp_all
        · rintro rfl; exact ⟨rfl, rfl⟩)

/-!
Verification of the `amm-liquidity` concentrated-liquidity replay engine
(`src/pools/cl_cpmm/cl_cpmm.py`, the pandas variant, and
`src/pools/cl_cpmm/cl_cpmm_polars.py`, the polars variant) against its
natural-language specification.

Modelling conventions.

* Python floats are modelled by exact rationals (`ℚ`); the spec explicitly
  declares bit-for-bit float parity a non-goal.  All arithmetic the source
  performs with `+ - * /` is carried over literally on `ℚ`.
* The three transcendental helpers (`sqrtPrice_to_tick` which uses
  `math.log`, `tick_to_sqrtPrice` which is `1.0001 ** (tick / 2)`, and the
  square root in `Initialize`) cannot be expressed exactly on `ℚ`; they are
  a parameter `MathO` of every handler, and theorems quantify over it
  wherever the exact value does not matter.  `ratOracle` below is the
  concrete instance used for closed evaluations; its values agree with the
  Python float computation at every point where a closed theorem uses it
  (this is noted at each such theorem).
* Python locals that may be read before assignment (`sqrtPrice_next`,
  `tick_next`, `L` in `Swap`) are `Option` fields; reading `none` is
  `Err.nameError`, exactly where CPython would raise `NameError`.
  Arithmetic or `int()` on a `None` *value* (an optional argument that was
  not supplied) is `Err.typeError`.  Attributes `self.sqrtPrice` /
  `self.tick` start as `None`, hence `Option` fields of `Pool`.
* pandas `Series.min()/max()` of an empty selection is NaN, and every
  comparison with NaN is false; this is modelled by `Option ℤ` results with
  a `none` branch that makes the comparison false.
* The per-event log frames (`self.mints`, `self.burns`, `self.collects`,
  `self.swaps`) only feed the view function `view_all_pool_events` and are
  consulted by nothing the claims mention; they are not modelled.
* The unbounded `while` loops inside `Swap` are modelled with an explicit
  fuel parameter; exhausting the fuel yields the artificial result
  `Err.outOfFuel`, which represents "the Python loop is still running
  after that many iterations".
-/

set_option maxRecDepth 4000
set_option linter.unusedVariables false

namespace CL

/-- Exceptions of the source (`cl_cpmm.py` bottom of file), plus the two
pseudo-errors `typeError`/`nameError` for CPython's own exceptions, and the
fuel artifact `outOfFuel`.  Note the source defines *no*
`SwapNonTermination` exception, so none exists here either. -/
inductive Err where
  | incorrectInput
  | tickPriceMisalignment
  | swapAmount
  | swapAlignment
  | burnMintMatch
  | typeError
  | nameError
  | outOfFuel
deriving DecidableEq

/-- Non-fatal `warnings.warn` calls of the source. -/
inductive Warn where
  | burnNegClamp
  | swapTickMismatch
  | swapLiquidityMismatch
deriving DecidableEq

/-- Event coordinates carried by every pool event. -/
structure EvtCoords where
  logIndex : ℤ
  blockNumber : ℤ
  transactionIndex : ℤ
  transactionHash : String
deriving DecidableEq

/-- One row of the `self.positions` frame (column list in `__init__`). -/
structure Position where
  tokenId : ℤ
  last_L : ℚ
  start_L : ℚ
  increase_L : ℚ
  tickLower : ℤ
  tickUpper : ℤ
  owner : String
  start_token0_holdings : ℚ
  start_token1_holdings : ℚ
  increase_token0_holdings : ℚ
  increase_token1_holdings : ℚ
  last_token0_holdings : ℚ
  last_token1_holdings : ℚ
  token0_fees_accrued : ℚ
  token1_fees_accrued : ℚ
  token0_collected : ℚ
  token1_collected : ℚ
  start_logIndex : ℤ
  start_blockNumber : ℤ
  start_transactionIndex : ℤ
  start_transactionHash : String
  last_logIndex : ℤ
  last_blockNumber : ℤ
  last_transactionIndex : ℤ
  last_transactionHash : String
deriving DecidableEq

/-- Mutable pool state of `ConcentratedLiquidity` (the fields of `self`
that the handlers read or write; `fee` and `protocol_fee` are already
scaled by `10⁻⁶` as in `__init__`). -/
structure Pool where
  fee : ℚ
  tickSpacing : ℤ
  protocol_fee : ℚ
  positions : List Position
  total_fee0 : ℚ
  total_fee1 : ℚ
  liquidity : ℚ
  sqrtPrice : Option ℚ
  sqrtPriceX96 : Option ℚ
  tick : Option ℤ
deriving DecidableEq

/-- The three float-transcendental helpers of the source, taken as a
parameter: `sqrtPrice_to_tick` (uses `math.log`), `tick_to_sqrtPrice`
(`1.0001 ** (tick / 2)`) and the square root `price ** 0.5` used by
`Initialize`. -/
structure MathO where
  sqrtPriceToTick : ℚ → ℤ
  tickToSqrtPrice : ℤ → ℚ
  sqrtQ : ℚ → ℚ

/-- Python truthiness of an optional number: `None` and `0` are falsy.
Used to model `any([...])` over optional arguments. -/
def truthyQ : Option ℚ → Bool
  | none => false
  | some q => decide (q ≠ 0)

/-- Python truthiness of an optional integer. -/
def truthyI : Option ℤ → Bool
  | none => false
  | some t => decide (t ≠ 0)

/-- `math.floor` on an exact rational. -/
def ratFloor (q : ℚ) : ℤ := Int.fdiv q.num q.den

/-- `math.ceil` on an exact rational. -/
def ratCeil (q : ℚ) : ℤ := -ratFloor (-q)

/-- Python's builtin `round` to an integer (round half to even). -/
def pyRound (q : ℚ) : ℤ :=
  let f := ratFloor q
  let r := q - f
  if r < 1/2 then f
  else if 1/2 < r then f + 1
  else if f % 2 = 0 then f else f + 1

/-- `Series.min()` with the pandas convention that an empty selection
yields NaN, modelled as `none`. -/
def minI (l : List ℤ) : Option ℤ :=
  l.foldl (fun acc x => match acc with
    | none => some x
    | some m => some (min m x)) none

/-- `Series.max()` with the pandas empty-selection convention. -/
def maxI (l : List ℤ) : Option ℤ :=
  l.foldl (fun acc x => match acc with
    | none => some x
    | some m => some (max m x)) none

/-- `positions['last_L'].sum()` over a (filtered) list of rows. -/
def sumL (l : List Position) : ℚ := (l.map (·.last_L)).sum

/-- The `last_L` column of a frame. -/
def lastLs (l : List Position) : List ℚ := l.map (·.last_L)

/-- Boolean form of invariant P1: every position has `last_L ≥ 0`. -/
def allNonneg (l : List Position) : Bool :=
  (lastLs l).all (fun q => decide (0 ≤ q))

/-- The fields of a row that the swap traversal never modifies and that
all its filter predicates depend on. -/
def posKey (p : Position) : ℤ × ℤ × ℤ × ℚ :=
  (p.tokenId, p.tickLower, p.tickUpper, p.last_L)

/-- `self.Q96 = 2 ** 96`. -/
def Q96 : ℚ := 2 ^ 96

/-- `get_amount0`: token0 between two sqrt-prices for liquidity `L`
(the source swaps the arguments so the smaller comes first). -/
def get_amount0 (sqrtPriceA sqrtPriceB L : ℚ) : ℚ :=
  if sqrtPriceB < sqrtPriceA then L * (1/sqrtPriceB - 1/sqrtPriceA)
  else L * (1/sqrtPriceA - 1/sqrtPriceB)

/-- `get_amount1`: token1 between two sqrt-prices for liquidity `L`. -/
def get_amount1 (sqrtPriceA sqrtPriceB L : ℚ) : ℚ :=
  if sqrtPriceB < sqrtPriceA then L * (sqrtPriceA - sqrtPriceB)
  else L * (sqrtPriceB - sqrtPriceA)

/-- `get_amounts`: both token amounts given the current sqrt-price. -/
def get_amounts (sqrtPrice sqrtPriceA sqrtPriceB L : ℚ) : ℚ × ℚ :=
  let a := if sqrtPriceA > sqrtPriceB then sqrtPriceB else sqrtPriceA
  let b := if sqrtPriceA > sqrtPriceB then sqrtPriceA else sqrtPriceB
  if sqrtPrice ≤ a then (get_amount0 a b L, 0)
  else if sqrtPrice < b then (get_amount0 sqrtPrice b L, get_amount1 a sqrtPrice L)
  else (0, get_amount1 a b L)

/-- `get_next_sqrtPrice_from_amount0`. -/
def get_next_sqrtPrice_from_amount0 (sqrtPrice L amountIn : ℚ) : ℚ :=
  1 / ((amountIn / L) + (1 / sqrtPrice))

/-- `get_next_sqrtPrice_from_amount1`. -/
def get_next_sqrtPrice_from_amount1 (sqrtPrice L amountIn : ℚ) : ℚ :=
  sqrtPrice + (amountIn / L)

/-- `position_last_update_state` applied to one row: the source assigns
the event coordinates to the whole `last_*` columns, i.e. to every row of
the frame it is given. -/
def setLastCoords (c : EvtCoords) (p : Position) : Position :=
  { p with last_blockNumber := c.blockNumber,
           last_transactionIndex := c.transactionIndex,
           last_logIndex := c.logIndex,
           last_transactionHash := c.transactionHash }

/-- `Initialize` (pandas variant, lines 63-112).  The `price` branch of
the source computes `self.sqrtPriceX96 = sqrtPrice * self.Q96` from the
*parameter* `sqrtPrice`, which is `None` when only `price` was supplied —
a `TypeError` in CPython, modelled by `Err.typeError`.  In the `warn`
branch of a tick mismatch the source builds the exception without raising
it and leaves `self.tick` untouched. -/
def Initialize (o : MathO) (pool : Pool) (sqrtPrice sqrtPriceX96 price : Option ℚ)
    (tick : Option ℤ) (warn : Bool) : Except Err (Pool × List Warn) :=
  if ¬(truthyQ sqrtPrice ∨ truthyQ sqrtPriceX96 ∨ truthyQ price) then
    .error .incorrectInput
  else
    let step : Except Err (ℚ × ℚ) :=
      match price with
      | some pr =>
        match sqrtPrice with
        | none => .error .typeError
        | some s => .ok (o.sqrtQ pr, s * Q96)
      | none =>
        match sqrtPriceX96 with
        | some x => .ok (x / Q96, x)
        | none =>
          match sqrtPrice with
          | some s => .ok (s, s * Q96)
          | none => .error .incorrectInput
    match step with
    | .error e => .error e
    | .ok (nsp, nx) =>
      match tick with
      | some t =>
        if o.sqrtPriceToTick nsp ≠ t then
          if warn then .ok ({ pool with sqrtPrice := some nsp, sqrtPriceX96 := some nx }, [])
          else .error .tickPriceMisalignment
        else .ok ({ pool with sqrtPrice := some nsp, sqrtPriceX96 := some nx,
                              tick := some t }, [])
      | none => .ok ({ pool with sqrtPrice := some nsp, sqrtPriceX96 := some nx,
                                 tick := some (o.sqrtPriceToTick nsp) }, [])

/-- The fresh row appended by `Mint` for an unseen `tokenId`. -/
def newPosition (tokenId : ℤ) (tickLower tickUpper : ℤ) (amount amount0 amount1 : ℚ)
    (sender : String) (c : EvtCoords) : Position :=
  { tokenId := tokenId, last_L := amount, start_L := amount, increase_L := 0,
    tickLower := tickLower, tickUpper := tickUpper, owner := sender,
    start_token0_holdings := amount0, start_token1_holdings := amount1,
    increase_token0_holdings := 0, increase_token1_holdings := 0,
    last_token0_holdings := amount0, last_token1_holdings := amount1,
    token0_fees_accrued := 0, token1_fees_accrued := 0,
    token0_collected := 0, token1_collected := 0,
    start_logIndex := c.logIndex, start_blockNumber := c.blockNumber,
    start_transactionIndex := c.transactionIndex,
    start_transactionHash := c.transactionHash,
    last_logIndex := c.logIndex, last_blockNumber := c.blockNumber,
    last_transactionIndex := c.transactionIndex,
    last_transactionHash := c.transactionHash }

/-- Row update of the pandas `Mint` for an existing `tokenId`
(lines 156-161), one column assignment after the other.  Line 159 of the
source rebuilds the whole `increase_L` column from the *already updated*
`last_L` column: the matched row becomes `last_L + amount`
(= old `last_L` + 2·amount) and every other row's `increase_L` is
overwritten with that row's `last_L`. -/
def mintRowPandas (tokenId : ℤ) (amount amount0 amount1 : ℚ) (p : Position) : Position :=
  let p1 := if p.tokenId = tokenId then { p with last_L := p.last_L + amount } else p
  let p2 := if p.tokenId = tokenId then
      { p1 with last_token0_holdings := p1.last_token0_holdings + amount0 } else p1
  let p3 := if p.tokenId = tokenId then
      { p2 with last_token1_holdings := p2.last_token1_holdings + amount1 } else p2
  let p4 := if p.tokenId = tokenId then { p3 with increase_L := p3.last_L + amount }
            else { p3 with increase_L := p3.last_L }
  let p5 := if p.tokenId = tokenId then
      { p4 with increase_token0_holdings := p4.increase_token0_holdings + amount0 } else p4
  let p6 := if p.tokenId = tokenId then
      { p5 with increase_token1_holdings := p5.increase_token1_holdings + amount1 } else p5
  p6

/-- Row update of the polars `Mint` for an existing `tokenId`
(lines 200-212): here `increase_L` is correctly accumulated from the
`increase_L` column itself. -/
def mintRowPolars (tokenId : ℤ) (amount amount0 amount1 : ℚ) (p : Position) : Position :=
  let p1 := if p.tokenId = tokenId then { p with last_L := p.last_L + amount } else p
  let p2 := if p.tokenId = tokenId then
      { p1 with last_token0_holdings := p1.last_token0_holdings + amount0 } else p1
  let p3 := if p.tokenId = tokenId then
      { p2 with last_token1_holdings := p2.last_token1_holdings + amount1 } else p2
  let p4 := if p.tokenId = tokenId then { p3 with increase_L := p3.increase_L + amount } else p3
  let p5 := if p.tokenId = tokenId then
      { p4 with increase_token0_holdings := p4.increase_token0_holdings + amount0 } else p4
  let p6 := if p.tokenId = tokenId then
      { p5 with increase_token1_holdings := p5.increase_token1_holdings + amount1 } else p5
  p6

/-- `Mint` (pandas variant, lines 115-192).  Existing `tokenId`: update
the row columns and stamp the event coordinates on every row; new
`tokenId`: append a fresh row without touching the others.  Finally
recompute in-range `self.liquidity` at `sqrtPrice_to_tick(self.sqrtPrice)`. -/
def Mint (o : MathO) (pool : Pool) (tickLower tickUpper : ℤ)
    (amount amount0 amount1 : ℚ) (sender : String) (c : EvtCoords)
    (tokenId : ℤ) : Except Err (Pool × List Warn) :=
  let pos := pool.positions
  let pos' :=
    if pos.any (fun p => decide (p.tokenId = tokenId)) then
      (pos.map (mintRowPandas tokenId amount amount0 amount1)).map (setLastCoords c)
    else
      pos ++ [newPosition tokenId tickLower tickUpper amount amount0 amount1 sender c]
  match pool.sqrtPrice with
  | none => .error .typeError
  | some sp =>
    let ctk := o.sqrtPriceToTick sp
    let liq := sumL (pos'.filter (fun p => decide (p.tickLower ≤ ctk) && decide (ctk < p.tickUpper)))
    .ok ({ pool with positions := pos', liquidity := liq }, [])

/-- `Mint` (polars variant, lines 151-253); identical to the pandas one
except for the corrected `increase_L` column update. -/
def Mint_polars (o : MathO) (pool : Pool) (tickLower tickUpper : ℤ)
    (amount amount0 amount1 : ℚ) (sender : String) (c : EvtCoords)
    (tokenId : ℤ) : Except Err (Pool × List Warn) :=
  let pos := pool.positions
  let pos' :=
    if pos.any (fun p => decide (p.tokenId = tokenId)) then
      (pos.map (mintRowPolars tokenId amount amount0 amount1)).map (setLastCoords c)
    else
      pos ++ [newPosition tokenId tickLower tickUpper amount amount0 amount1 sender c]
  match pool.sqrtPrice with
  | none => .error .typeError
  | some sp =>
    let ctk := o.sqrtPriceToTick sp
    let liq := sumL (pos'.filter (fun p => decide (p.tickLower ≤ ctk) && decide (ctk < p.tickUpper)))
    .ok ({ pool with positions := pos', liquidity := liq }, [])

/-- Row update shared by both `Burn` variants: subtract the liquidity and
overwrite the reported holdings on the matched row. -/
def burnRow (tokenId : ℤ) (amount amount0 amount1 : ℚ) (p : Position) : Position :=
  if p.tokenId = tokenId then
    { p with last_L := p.last_L - amount,
             last_token0_holdings := amount0, last_token1_holdings := amount1 }
  else p

/-- `Burn` (pandas variant, lines 195-251): `BurnMintMatchError` unless
exactly one row matches; after the update, if any row's `last_L` is
negative, warn and clamp every negative `last_L` to 0. -/
def Burn (pool : Pool) (tickLower tickUpper : ℤ) (amount amount0 amount1 : ℚ)
    (owner : String) (c : EvtCoords) (tokenId : ℤ) : Except Err (Pool × List Warn) :=
  let pos := pool.positions
  if (pos.filter (fun p => decide (p.tokenId = tokenId))).length ≠ 1 then
    .error .burnMintMatch
  else
    let pos1 := (pos.map (burnRow tokenId amount amount0 amount1)).map (setLastCoords c)
    if (pos1.filter (fun p => decide (p.last_L < 0))).isEmpty then
      .ok ({ pool with positions := pos1 }, [])
    else
      .ok ({ pool with positions := pos1.map (fun p => if p.last_L < 0 then { p with last_L := 0 } else p) },
           [.burnNegClamp])

/-- `Burn` (polars variant, lines 256-324): same, except the clamp
threshold is `last_L ≤ 8184` (a known rounding residue) and it zeroes
every row at or below that threshold, not only the burned one. -/
def Burn_polars (pool : Pool) (tickLower tickUpper : ℤ) (amount amount0 amount1 : ℚ)
    (owner : String) (c : EvtCoords) (tokenId : ℤ) : Except Err (Pool × List Warn) :=
  let pos := pool.positions
  if (pos.filter (fun p => decide (p.tokenId = tokenId))).length ≠ 1 then
    .error .burnMintMatch
  else
    let pos1 := (pos.map (burnRow tokenId amount amount0 amount1)).map (setLastCoords c)
    if (pos1.filter (fun p => decide (p.last_L ≤ 8184))).isEmpty then
      .ok ({ pool with positions := pos1 }, [])
    else
      .ok ({ pool with positions := pos1.map (fun p => if p.last_L ≤ 8184 then { p with last_L := 0 } else p) },
           [.burnNegClamp])

/-- Row update shared by both `Collect` variants: accumulate the reported
collected amounts on the matched row. -/
def collectRow (tokenId : ℤ) (amount0 amount1 : ℚ) (p : Position) : Position :=
  if p.tokenId = tokenId then
    { p with token0_collected := p.token0_collected + amount0,
             token1_collected := p.token1_collected + amount1 }
  else p

/-- Holdings refresh applied to every row (used by `Collect` and at the
end of `Swap`): recompute `last_token{0,1}_holdings` from the current
sqrt-price via `get_amounts`. -/
def refreshRow (o : MathO) (sp : ℚ) (p : Position) : Position :=
  let am := get_amounts sp (o.tickToSqrtPrice p.tickLower) (o.tickToSqrtPrice p.tickUpper) p.last_L
  { p with last_token0_holdings := am.1, last_token1_holdings := am.2 }

/-- `Collect` (pandas variant, lines 254-304).  The mismatch check at
line 296 *constructs* a `CollectMatchError` but never raises it (and emits
no warning either), so the handler always proceeds: accumulate the
collected amounts, refresh every row's holdings from the current
sqrt-price, stamp the event coordinates. -/
def Collect (o : MathO) (pool : Pool) (tickLower tickUpper : ℤ)
    (amount0 amount1 : ℚ) (recipient : String) (c : EvtCoords)
    (tokenId : ℤ) : Except Err (Pool × List Warn) :=
  let pos1 := pool.positions.map (collectRow tokenId amount0 amount1)
  match pool.sqrtPrice with
  | none => .error .typeError
  | some sp =>
    let pos2 := (pos1.map (refreshRow o sp)).map (setLastCoords c)
    .ok ({ pool with positions := pos2 }, [])

/-- `Collect` (polars variant, lines 327-404): here the mismatch check
*does* raise — and it raises `BurnMintMatchError` with the burn wording
(lines 377-379), not a collect-specific exception. -/
def Collect_polars (o : MathO) (pool : Pool) (tickLower tickUpper : ℤ)
    (amount0 amount1 : ℚ) (recipient : String) (c : EvtCoords)
    (tokenId : ℤ) : Except Err (Pool × List Warn) :=
  let pos := pool.positions
  if (pos.filter (fun p => decide (p.tokenId = tokenId))).length ≠ 1 then
    .error .burnMintMatch
  else
    let pos1 := pos.map (collectRow tokenId amount0 amount1)
    match pool.sqrtPrice with
    | none => .error .typeError
    | some sp =>
      let pos2 := (pos1.map (refreshRow o sp)).map (setLastCoords c)
      .ok ({ pool with positions := pos2 }, [])

/-! ## The swap engine -/

/-- Direction resolution of `Swap` (lines 353-371): `zeroForOne` starts as
`None`, is set to `True` when `amount0 > 0` and then *overwritten* with
`False` when `amount1 > 0`; `SwapAmountError` is raised only when it is
still `None`, i.e. only when *neither* amount is positive. -/
def swapDirection (amount0 amount1 : ℚ) : Option Bool :=
  let z : Option Bool := if 0 < amount0 then some true else none
  if 0 < amount1 then some false else z

/-- Covering predicate of the zeroForOne traversal (line 402):
`tickLower < current_tick ∧ tickUpper ≥ current_tick ∧ last_L > 0`. -/
def zCov (ct : ℤ) (p : Position) : Bool :=
  decide (p.tickLower < ct) && decide (ct ≤ p.tickUpper) && decide (0 < p.last_L)

/-- Boundary-pinned active set of the zeroForOne traversal (line 406):
`tickLower == current_tick ∧ last_L > 0`. -/
def zPin (ct : ℤ) (p : Position) : Bool :=
  decide (p.tickLower = ct) && decide (0 < p.last_L)

/-- Covering predicate of the oneForZero traversal (line 456):
`tickLower ≤ current_tick ∧ tickUpper > current_tick ∧ last_L > 0`. -/
def oCov (ct : ℤ) (p : Position) : Bool :=
  decide (p.tickLower ≤ ct) && decide (ct < p.tickUpper) && decide (0 < p.last_L)

/-- Boundary-pinned active set of the oneForZero traversal (line 460):
`tickUpper == current_tick ∧ last_L > 0`. -/
def oPin (ct : ℤ) (p : Position) : Bool :=
  decide (p.tickUpper = ct) && decide (0 < p.last_L)

/-- `last_L > 0` (the active-position filter). -/
def activeB (p : Position) : Bool := decide (0 < p.last_L)

/-- State of the traversal loop locals.  `bt`/`sqrtB` are
`current_tick_lower`/`sqrtPriceA` in the zeroForOne loop and
`current_tick_upper`/`sqrtPriceB` in the oneForZero loop.  `spNext`,
`tkNext` and `Lv` model the Python locals `sqrtPrice_next`, `tick_next`
and `L`, which are unbound (`none`) until first assigned. -/
structure LoopSt where
  pos : List Position
  a0 : ℚ
  a1 : ℚ
  ct : ℤ
  bt : ℤ
  sqrtP : ℚ
  sqrtB : ℚ
  feeC : ℤ
  spNext : Option ℚ
  tkNext : Option ℤ
  Lv : Option ℚ
deriving DecidableEq

/-- One loop iteration either breaks / will fail the guard (`done`) or
continues with a new state (`next`). -/
inductive StepRes where
  | done (s : LoopSt)
  | next (s : LoopSt)
deriving DecidableEq

/-- The state carried by a `StepRes`. -/
def StepRes.st : StepRes → LoopSt
  | .done s => s
  | .next s => s

/-- Fee attribution on the token0 side (lines 426, 436): add
`last_L * fee0_per_L` to the rows of the active set. -/
def feeUpd0 (perL : ℚ) (actP : Position → Bool) (p : Position) : Position :=
  if actP p then { p with token0_fees_accrued := p.token0_fees_accrued + p.last_L * perL }
  else p

/-- Fee attribution on the token1 side (lines 494, 504). -/
def feeUpd1 (perL : ℚ) (actP : Position → Bool) (p : Position) : Position :=
  if actP p then { p with token1_fees_accrued := p.token1_fees_accrued + p.last_L * perL }
  else p

/-- Active-set resolution of the zeroForOne body (lines 402-414): either
a predicate selecting the rows to trade against (`inl`), or a continue
with stepped tick bounds (`inr`).  The pandas NaN semantics is mirrored:
with no active position at all, `min()` is NaN, both comparisons are
false and the else branch steps the tick down one spacing. -/
def zChoice (spacing : ℤ) (s : LoopSt) : (Position → Bool) ⊕ LoopSt :=
  if (s.pos.filter (zCov s.ct)).isEmpty then
    match minI ((s.pos.filter activeB).map (·.tickLower)) with
    | some m =>
      if s.ct = m then Sum.inl (zPin s.ct)
      else if s.ct < m then Sum.inr { s with ct := m, bt := m - spacing }
      else Sum.inr { s with ct := s.bt, bt := s.bt - spacing }
    | none => Sum.inr { s with ct := s.bt, bt := s.bt - spacing }
  else Sum.inl (zCov s.ct)

/-- One iteration of the zeroForOne traversal body (lines 402-444),
assuming the guard `amount0_a > 0` held: resolve the active set, then
either break with the terminal price (enough reserves in the sub-range)
or cross the boundary, distributing the fee either way. -/
def zStep (o : MathO) (spacing : ℤ) (fee : ℚ) (s : LoopSt) : StepRes :=
  match zChoice spacing s with
  | Sum.inr s' => .next s'
  | Sum.inl actP =>
    let L := sumL (s.pos.filter actP)
    if get_amount0 s.sqrtP s.sqrtB L > s.a0 then
      let pn := get_next_sqrtPrice_from_amount0 s.sqrtP L s.a0
      let tn := o.sqrtPriceToTick pn
      let fee0 := pyRound (s.a0 / (1 - fee) - s.a0)
      let perL := (fee0 : ℚ) / L
      .done { s with pos := s.pos.map (feeUpd0 perL actP),
                     feeC := s.feeC + fee0,
                     spNext := some pn, tkNext := some tn, Lv := some L }
    else
      let d0 := get_amount0 s.sqrtP s.sqrtB L
      let d1 := get_amount1 s.sqrtP s.sqrtB L
      let fee0 := pyRound (d0 / (1 - fee) - d0)
      let perL := (fee0 : ℚ) / L
      .next { s with pos := s.pos.map (feeUpd0 perL actP),
                     feeC := s.feeC + fee0,
                     a0 := s.a0 - d0, a1 := s.a1 - d1,
                     ct := s.bt, bt := s.bt - spacing,
                     sqrtP := o.tickToSqrtPrice s.bt,
                     sqrtB := o.tickToSqrtPrice (s.bt - spacing),
                     Lv := some L }

/-- Active-set resolution of the oneForZero body (lines 456-470), the
upward mirror of `zChoice`. -/
def oChoice (spacing : ℤ) (s : LoopSt) : (Position → Bool) ⊕ LoopSt :=
  if (s.pos.filter (oCov s.ct)).isEmpty then
    match maxI ((s.pos.filter activeB).map (·.tickUpper)) with
    | some m =>
      if s.ct = m then Sum.inl (oPin s.ct)
      else if m < s.ct then Sum.inr { s with ct := m, bt := m + spacing }
      else Sum.inr { s with ct := s.bt, bt := s.bt + spacing }
    | none => Sum.inr { s with ct := s.bt, bt := s.bt + spacing }
  else Sum.inl (oCov s.ct)

/-- The unreachable second emptiness resolution of the oneForZero body
(lines 473-481; the impossible `max()`-of-empty arm falls back to the
tick step like the source's else branch would on NaN comparisons). -/
def oSecond (spacing : ℤ) (s : LoopSt) : LoopSt :=
  match maxI ((s.pos.filter activeB).map (·.tickUpper)) with
  | some mU =>
    if mU < s.ct then
      match maxI ((s.pos.filter activeB).map (·.tickLower)) with
      | some mL => { s with ct := mL, bt := mL + spacing }
      | none => { s with ct := s.bt, bt := s.bt + spacing }
    else { s with ct := s.bt, bt := s.bt + spacing }
  | none => { s with ct := s.bt, bt := s.bt + spacing }

/-- One iteration of the oneForZero traversal body (lines 456-512),
including the (in pandas unreachable) second emptiness check of
lines 473-481, translated as written. -/
def oStep (o : MathO) (spacing : ℤ) (fee : ℚ) (s : LoopSt) : StepRes :=
  match oChoice spacing s with
  | Sum.inr s' => .next s'
  | Sum.inl actP =>
    if (s.pos.filter actP).isEmpty then
      .next (oSecond spacing s)
    else
    let L := sumL (s.pos.filter actP)
    if get_amount1 s.sqrtP s.sqrtB L > s.a1 then
      let pn := get_next_sqrtPrice_from_amount1 s.sqrtP L s.a1
      let tn := o.sqrtPriceToTick pn
      let fee1 := pyRound (s.a1 / (1 - fee) - s.a1)
      let perL := (fee1 : ℚ) / L
      .done { s with pos := s.pos.map (feeUpd1 perL actP),
                     feeC := s.feeC + fee1,
                     spNext := some pn, tkNext := some tn, Lv := some L }
    else
      let d0 := get_amount0 s.sqrtP s.sqrtB L
      let d1 := get_amount1 s.sqrtP s.sqrtB L
      let fee1 := pyRound (d1 / (1 - fee) - d1)
      let perL := (fee1 : ℚ) / L
      .next { s with pos := s.pos.map (feeUpd1 perL actP),
                     feeC := s.feeC + fee1,
                     a0 := s.a0 - d0, a1 := s.a1 - d1,
                     ct := s.bt, bt := s.bt + spacing,
                     sqrtP := o.tickToSqrtPrice s.bt,
                     sqrtB := o.tickToSqrtPrice (s.bt + spacing),
                     Lv := some L }

/-- The zeroForOne `while amount0_a > 0` loop (line 401), with fuel. -/
def zLoop (o : MathO) (spacing : ℤ) (fee : ℚ) : ℕ → LoopSt → Except Err LoopSt
  | 0, s => if 0 < s.a0 then .error .outOfFuel else .ok s
  | n + 1, s =>
    if 0 < s.a0 then
      match zStep o spacing fee s with
      | .done s' => .ok s'
      | .next s' => zLoop o spacing fee n s'
    else .ok s

/-- The oneForZero `while amount1_a > 0` loop (line 455), with fuel. -/
def oLoop (o : MathO) (spacing : ℤ) (fee : ℚ) : ℕ → LoopSt → Except Err LoopSt
  | 0, s => if 0 < s.a1 then .error .outOfFuel else .ok s
  | n + 1, s =>
    if 0 < s.a1 then
      match oStep o spacing fee s with
      | .done s' => .ok s'
      | .next s' => oLoop o spacing fee n s'
    else .ok s

/-- Final state write-back shared by every commit path of `Swap`
(lines 554-556): commit sqrt-price / tick / liquidity, refresh every
row's holdings from the committed sqrt-price, stamp the event
coordinates.  `self.sqrtPriceX96` is never updated by `Swap`. -/
def swapFinish (o : MathO) (pool : Pool) (c : EvtCoords) (ls : LoopSt)
    (spC : ℚ) (tkC : Option ℤ) (liqC : ℚ) (ws : List Warn) :
    Except Err (Pool × List Warn) :=
  let pos' := (ls.pos.map (refreshRow o spC)).map (setLastCoords c)
  .ok ({ pool with sqrtPrice := some spC, tick := tkC, liquidity := liqC,
                   positions := pos' }, ws)

/-- Reconciliation of the reported against the computed swap state
(lines 515-549).  Notable faithful details:
* `not any([liquidity, tick, sqrtPriceX96])` uses Python truthiness, so a
  reported value of `0` counts as "not given";
* the committed-computed branch reads the possibly-unbound locals
  `sqrtPrice_next`, `tick_next`, `L` (NameError when unbound);
* the non-`warn_all` tick check raises only when
  `not (ceil(tick + tol*100) >= tick_next) and (floor(tick - tol*100) <= tick_next)`
  — the `not` binds only to the first comparison, exactly as in the
  source;
* in the mismatch branches, arithmetic or `int()` on a `None` reported
  value is a TypeError;
* the reported `tick` is committed as-is (Python would happily store
  `None`). -/
def swapReconcile (ls : LoopSt) (tick : Option ℤ) (liquidity : Option ℚ)
    (warn_all : Bool) (tolerance : ℚ) : Except Err (List Warn) :=
  match tick with
  | none => .error .typeError
  | some tr =>
    match ls.tkNext with
    | none => .error .nameError
    | some tn =>
      if warn_all then
        if tr ≠ tn then .ok [.swapTickMismatch]
        else
          match ls.Lv with
          | none => .error .nameError
          | some l =>
            match liquidity with
            | none => .error .typeError
            | some lq => if l ≠ lq then .ok [.swapLiquidityMismatch] else .ok []
      else
        if tr ≠ tn then
          if ¬(tn ≤ ratCeil ((tr : ℚ) + tolerance * 100)) ∧
              ratFloor ((tr : ℚ) - tolerance * 100) ≤ tn then
            .error .swapAlignment
          else .ok [.swapTickMismatch]
        else
          match ls.Lv with
          | none => .error .nameError
          | some l =>
            match liquidity with
            | none => .error .typeError
            | some lq =>
              if l ≠ lq then
                if ¬(l ≤ lq * (1 + tolerance)) ∧ lq * (1 - tolerance) ≤ l then
                  .error .swapAlignment
                else .ok [.swapLiquidityMismatch]
              else .ok []

/-- The three commit paths of lines 515-549, dispatching on the optional
reported triplet. -/
def swapCommit (o : MathO) (pool : Pool) (c : EvtCoords) (ls : LoopSt)
    (sqrtPriceX96 : Option ℚ) (tick : Option ℤ) (liquidity : Option ℚ)
    (warn_all : Bool) (tolerance : ℚ) (pass_error : Bool) :
    Except Err (Pool × List Warn) :=
  if ¬(truthyQ liquidity ∨ truthyI tick ∨ truthyQ sqrtPriceX96) then
    match ls.spNext with
    | none => .error .nameError
    | some pn =>
      match ls.tkNext with
      | none => .error .nameError
      | some tn =>
        match ls.Lv with
        | none => .error .nameError
        | some l => swapFinish o pool c ls pn (some tn) l []
  else if pass_error then
    match sqrtPriceX96 with
    | none => .error .typeError
    | some x =>
      swapFinish o pool c ls (x / Q96) tick (sumL (ls.pos.filter (zCov ls.ct))) []
  else
    match swapReconcile ls tick liquidity warn_all tolerance with
    | .error e => .error e
    | .ok ws =>
      match sqrtPriceX96 with
      | none => .error .typeError
      | some x =>
        match ls.Lv with
        | none => .error .nameError
        | some l => swapFinish o pool c ls (x / Q96) tick l ws

/-- Propagate a traversal failure, otherwise commit (the tail of `Swap`
after its loop). -/
def swapTail (o : MathO) (pool1 : Pool) (c : EvtCoords) (sqrtPriceX96 : Option ℚ)
    (tick : Option ℤ) (liquidity : Option ℚ) (warn_all : Bool) (tolerance : ℚ)
    (pass_error : Bool) (r : Except Err LoopSt) : Except Err (Pool × List Warn) :=
  match r with
  | .error e => .error e
  | .ok ls => swapCommit o pool1 c ls sqrtPriceX96 tick liquidity warn_all tolerance pass_error

/-- `Swap` (pandas variant, lines 306-557).  Sequence: direction and pool
fee accumulation; tick realignment onto the active boundary span
(NaN-comparisons false when there is no active position); `get_tick_range`
with Python floor division; the directional traversal loop; commit. -/
def Swap (o : MathO) (fuel : ℕ) (pool : Pool) (amount0 amount1 : ℚ)
    (c : EvtCoords) (sqrtPriceX96 : Option ℚ) (tick : Option ℤ)
    (liquidity : Option ℚ) (warn_all : Bool) (tolerance : ℚ)
    (pass_error : Bool) : Except Err (Pool × List Warn) :=
  match swapDirection amount0 amount1 with
  | none => .error .swapAmount
  | some z =>
    let tf0 := if 0 < amount0 then amount0 * pool.fee else 0
    let tf1 := if 0 < amount1 then amount1 * pool.fee else 0
    let a0nf := amount0 - tf0
    let a1nf := amount1 - tf1
    let pool1 := { pool with total_fee0 := pool.total_fee0 + tf0,
                             total_fee1 := pool.total_fee1 + tf1 }
    match pool.tick with
    | none => .error .typeError
    | some tk0 =>
      match pool.sqrtPrice with
      | none => .error .typeError
      | some sp0 =>
        let actpos := pool.positions.filter activeB
        let tkA := match minI (actpos.map (·.tickLower)) with
                   | some lo => if tk0 < lo then lo else tk0
                   | none => tk0
        let tkB := match maxI (actpos.map (·.tickUpper)) with
                   | some hi => if hi < tkA then hi else tkA
                   | none => tkA
        let ctl := Int.fdiv tkB pool.tickSpacing * pool.tickSpacing
        let ctu := ctl + pool.tickSpacing
        let s0 : LoopSt :=
          { pos := pool.positions, a0 := a0nf, a1 := a1nf, ct := tkB,
            bt := if z then ctl else ctu, sqrtP := sp0,
            sqrtB := o.tickToSqrtPrice (if z then ctl else ctu),
            feeC := 0, spNext := none, tkNext := none, Lv := none }
        swapTail o pool1 c sqrtPriceX96 tick liquidity warn_all tolerance pass_error
          (if z then zLoop o pool.tickSpacing pool.fee fuel s0
           else oLoop o pool.tickSpacing pool.fee fuel s0)

/-! ## Concrete oracle and fixtures -/

/-- Concrete instance of the transcendental helpers, used by the closed
evaluations.  `tickToSqrtPrice` is the exact value of
`1.0001 ** (tick / 2)` whenever `tick` is even (every closed run below
only evaluates it at even ticks); `sqrtPriceToTick` is the first-order
expansion `⌊(q - 1) · 20000⌋` of `log_{√1.0001} q`, which agrees with the
float computation of the source at every point where a closed theorem
below evaluates it (each such theorem notes the true float value). -/
def ratOracle : MathO where
  sqrtPriceToTick q := ratFloor ((q - 1) * 20000)
  tickToSqrtPrice t :=
    let k := t / 2
    if 0 ≤ k then (10001 / 10000 : ℚ) ^ k.toNat
    else (10000 / 10001 : ℚ) ^ (-k).toNat
  sqrtQ q := q

/-- A liquidity position on the tick range `[-2, 2)` with `L = 5`. -/
def basePos : Position :=
  { tokenId := 1, last_L := 5, start_L := 5, increase_L := 0,
    tickLower := -2, tickUpper := 2, owner := "lpA",
    start_token0_holdings := 1, start_token1_holdings := 1,
    increase_token0_holdings := 0, increase_token1_holdings := 0,
    last_token0_holdings := 1, last_token1_holdings := 1,
    token0_fees_accrued := 0, token1_fees_accrued := 0,
    token0_collected := 0, token1_collected := 0,
    start_logIndex := 1, start_blockNumber := 1,
    start_transactionIndex := 1, start_transactionHash := "hash1",
    last_logIndex := 2, last_blockNumber := 3,
    last_transactionIndex := 4, last_transactionHash := "hash2" }

/-- A fee-free pool (fee = 0 ppm, tickSpacing = 2) initialized at
`sqrtPrice = 1`, `tick = 0`, holding `basePos`. -/
def basePool : Pool :=
  { fee := 0, tickSpacing := 2, protocol_fee := 0, positions := [basePos],
    total_fee0 := 0, total_fee1 := 0, liquidity := 5,
    sqrtPrice := some 1, sqrtPriceX96 := some Q96, tick := some 0 }

/-- Event coordinates used by the concrete events. -/
def cEvt : EvtCoords :=
  { logIndex := 7, blockNumber := 99, transactionIndex := 3, transactionHash := "txh" }

/-- `basePool` with the position scaled to `L = 30000`. -/
def bigPool : Pool :=
  { basePool with positions := [{ basePos with last_L := 30000, start_L := 30000 }],
                  liquidity := 30000 }

/-- A pool with no position at all (tickSpacing = 60). -/
def noLiqPool : Pool :=
  { basePool with positions := [], liquidity := 0, tickSpacing := 60 }

/-- A second position, on `[-4, 4)` with `L = 7` and its own event
coordinates. -/
def otherPos : Position :=
  { basePos with tokenId := 2, last_L := 7, start_L := 7, increase_L := 3,
                 tickLower := -4, tickUpper := 4, owner := "lpB",
                 last_logIndex := 5, last_blockNumber := 5,
                 last_transactionIndex := 5, last_transactionHash := "hash5" }

/-- A pool holding two positions. -/
def twoPool : Pool :=
  { basePool with positions := [basePos, otherPos], liquidity := 12 }

/-- Fallback pool for `getOk`. -/
def dummyPool : Pool :=
  { fee := 0, tickSpacing := 1, protocol_fee := 0, positions := [],
    total_fee0 := 0, total_fee1 := 0, liquidity := 0,
    sqrtPrice := none, sqrtPriceX96 := none, tick := none }

/-- Extract the pool of a successful handler result. -/
def getOk (e : Except Err (Pool × List Warn)) : Pool :=
  match e with
  | .ok r => r.1
  | .error _ => dummyPool

/-- Extract the warnings of a successful handler result. -/
def getWs (e : Except Err (Pool × List Warn)) : List Warn :=
  match e with
  | .ok r => r.2
  | .error _ => []

/-- Whether a handler result is a normal return. -/
def isOkB (e : Except Err (Pool × List Warn)) : Bool :=
  match e with
  | .ok _ => true
  | .error _ => false

/-- Numerator/denominator view of a rational, used to state closed
evaluations of computed prices. -/
def qpair (q : ℚ) : ℤ × ℕ := (q.num, q.den)

/-! ## Helper lemmas -/

/-- Against a store with no positions at all, the zeroForOne traversal
advances the tick forever: the empty active selection makes the pandas
`min()` NaN, both NaN comparisons are false, and the else branch steps
down one spacing without touching `amount0_a`, for every fuel bound. -/
lemma zLoop_no_active (o : MathO) (sp : ℤ) (fee : ℚ) :
    ∀ (n : ℕ) (s : LoopSt), s.pos = [] → 0 < s.a0 →
      zLoop o sp fee n s = .error .outOfFuel := by
  intro n
  induction n with
  | zero => intro s hpos ha; simp [zLoop, ha]
  | succ n ih =>
    intro s hpos ha
    have hstep : zStep o sp fee s = .next { s with ct := s.bt, bt := s.bt - sp } := by
      simp [zStep, zChoice, hpos, minI]
    rw [zLoop, if_pos ha, hstep]
    exact ih _ (by simp [hpos]) ha

/-- Lift `zLoop_no_active` through the commit tail of `Swap`. -/
lemma swapTail_no_active (o : MathO) (pool1 : Pool) (c : EvtCoords) (spx : Option ℚ)
    (tk : Option ℤ) (liq : Option ℚ) (wa : Bool) (tol : ℚ) (pe : Bool)
    (sp : ℤ) (fee : ℚ) (n : ℕ) (s : LoopSt) (hpos : s.pos = []) (ha : 0 < s.a0) :
    swapTail o pool1 c spx tk liq wa tol pe (zLoop o sp fee n s) = .error .outOfFuel := by
  rw [zLoop_no_active o sp fee n s hpos ha]; rfl

/-- A `Swap` of 1 unit of token0 against `noLiqPool` (no active position)
never leaves the traversal loop, whatever the fuel bound. -/
lemma swap_noLiqPool_never_terminates (o : MathO) (n : ℕ) (c : EvtCoords) :
    Swap o n noLiqPool 1 0 c none none none false (1/40) false = .error .outOfFuel :=
  swapTail_no_active o _ c none none none false (1/40) false 60 0 n _ rfl
    (by norm_num [noLiqPool, basePool])

/-! ## Frame lemmas for the polars row updates -/

/-- A polars `Mint` row update leaves a non-matching row unchanged. -/
lemma mintRowPolars_ne (tid : ℤ) (a a0 a1 : ℚ) (p : Position) (h : p.tokenId ≠ tid) :
    mintRowPolars tid a a0 a1 p = p := by
  simp [mintRowPolars, h]

/-- A pandas `Mint` row update does *not* leave a non-matching row
unchanged: the whole-column `increase_L` assignment of line 159
overwrites its `increase_L` with its `last_L`. -/
lemma mintRowPandas_ne (tid : ℤ) (a a0 a1 : ℚ) (p : Position) (h : p.tokenId ≠ tid) :
    mintRowPandas tid a a0 a1 p = { p with increase_L := p.last_L } := by
  simp [mintRowPandas, h]

/-- A `Burn` row update leaves a non-matching row unchanged. -/
lemma burnRow_ne (tid : ℤ) (a a0 a1 : ℚ) (p : Position) (h : p.tokenId ≠ tid) :
    burnRow tid a a0 a1 p = p := by
  simp [burnRow, h]

/-- A `Collect` row update leaves a non-matching row unchanged. -/
lemma collectRow_ne (tid : ℤ) (a0 a1 : ℚ) (p : Position) (h : p.tokenId ≠ tid) :
    collectRow tid a0 a1 p = p := by
  simp [collectRow, h]

/-- Stamping the event coordinates does not change `last_L`. -/
@[simp] lemma setLastCoords_last_L (c : EvtCoords) (p : Position) :
    (setLastCoords c p).last_L = p.last_L := rfl

/-- C8, amended: in *both* variants, a `Mint`, `Burn` or `Collect`
referencing `tid` leaves every position with a different `tokenId`
unchanged *except* that (unless the event is a `Mint` of a new
`tokenId`) its four `last_*` event coordinates are overwritten with the
current event's coordinates; a `Burn` additionally zeroes that row's
`last_L` whenever it is below the variant's clamp threshold (`< 0`
pandas, `≤ 8184` polars), a `Collect` additionally recomputes that
row's holdings from the current sqrt-price (in both variants), and the
pandas `Mint` on an existing `tokenId` additionally overwrites that
row's `increase_L` with its `last_L` — see C4.  The original claim is
refuted by `c8_counterexample`. -/
theorem c8_amended_frame (o : MathO) (pool : Pool) (tl tu : ℤ)
    (amount amount0 amount1 : ℚ) (sender : String) (c : EvtCoords) (tid : ℤ)
    (i : ℕ) (p : Position) (hp : pool.positions[i]? = some p) (hne : p.tokenId ≠ tid) :
    (∀ r ws, Mint_polars o pool tl tu amount amount0 amount1 sender c tid = .ok (r, ws) →
       r.positions[i]? = some p ∨ r.positions[i]? = some (setLastCoords c p)) ∧
    (∀ r ws, Burn_polars pool tl tu amount amount0 amount1 sender c tid = .ok (r, ws) →
       r.positions[i]? = some (if p.last_L ≤ 8184 then { setLastCoords c p with last_L := 0 }
                               else setLastCoords c p)) ∧
    (∀ r ws sp, pool.sqrtPrice = some sp →
       Collect_polars o pool tl tu amount0 amount1 sender c tid = .ok (r, ws) →
       r.positions[i]? = some (setLastCoords c (refreshRow o sp p))) ∧
    (∀ r ws, Mint o pool tl tu amount amount0 amount1 sender c tid = .ok (r, ws) →
       r.positions[i]? = some p ∨
       r.positions[i]? = some (setLastCoords c { p with increase_L := p.last_L })) ∧
    (∀ r ws, Burn pool tl tu amount amount0 amount1 sender c tid = .ok (r, ws) →
       r.positions[i]? = some (if p.last_L < 0 then { setLastCoords c p with last_L := 0 }
                               else setLastCoords c p)) ∧
    (∀ r ws sp, pool.sqrtPrice = some sp →
       Collect o pool tl tu amount0 amount1 sender c tid = .ok (r, ws) →
       r.positions[i]? = some (setLastCoords c (refreshRow o sp p))) := by
  have hilt : i < pool.positions.length := (List.getElem?_eq_some_iff.mp hp).1
  refine ⟨?_, ?_, ?_, ?_, ?_, ?_⟩
  · intro r ws hok
    simp only [Mint_polars] at hok
    split at hok
    · cases hok
    · split at hok
      · right
        cases hok
        simp [List.getElem?_map, hp, mintRowPolars_ne tid amount amount0 amount1 p hne]
      · left
        cases hok
        simp only [List.getElem?_append_left hilt, hp]
  · intro r ws hok
    simp only [Burn_polars] at hok
    split at hok
    · cases hok
    · have hrow : ((pool.positions.map (burnRow tid amount amount0 amount1)).map
          (setLastCoords c))[i]? = some (setLastCoords c p) := by
        simp [List.getElem?_map, hp, burnRow_ne tid amount amount0 amount1 p hne]
      split at hok
      · rename_i hclamp
        cases hok
        have hgt : ¬(p.last_L ≤ 8184) := by
          intro hle
          have hmem := List.getElem?_mem hrow
          have hmem2 : setLastCoords c p ∈
              ((pool.positions.map (burnRow tid amount amount0 amount1)).map
                (setLastCoords c)).filter (fun q => decide (q.last_L ≤ 8184)) := by
            rw [List.mem_filter]
            exact ⟨hmem, by simpa using hle⟩
          rw [List.isEmpty_iff] at hclamp
          rw [hclamp] at hmem2
          cases hmem2
        rw [hrow, if_neg hgt]
      · cases hok
        simp only [List.getElem?_map, hrow, Option.map_some']
        by_cases hle : p.last_L ≤ 8184
        · rw [if_pos hle]
          simp [hle]
        · rw [if_neg hle]
          simp [hle]
  · intro r ws sp hsp hok
    simp only [Collect_polars] at hok
    split at hok
    · cases hok
    · rw [hsp] at hok
      cases hok
      simp [List.getElem?_map, hp, collectRow_ne tid amount0 amount1 p hne]
  · intro r ws hok
    simp only [Mint] at hok
    split at hok
    · cases hok
    · split at hok
      · right
        cases hok
        simp [List.getElem?_map, hp, mintRowPandas_ne tid amount amount0 amount1 p hne]
      · left
        cases hok
        simp only [List.getElem?_append_left hilt, hp]
  · intro r ws hok
    simp only [Burn] at hok
    split at hok
    · cases hok
    · have hrow : ((pool.positions.map (burnRow tid amount amount0 amount1)).map
          (setLastCoords c))[i]? = some (setLastCoords c p) := by
        simp [List.getElem?_map, hp, burnRow_ne tid amount amount0 amount1 p hne]
      split at hok
      · rename_i hclamp
        cases hok
        have hgt : ¬(p.last_L < 0) := by
          intro hlt
          have hmem := List.getElem?_mem hrow
          have hmem2 : setLastCoords c p ∈
              ((pool.positions.map (burnRow tid amount amount0 amount1)).map
                (setLastCoords c)).filter (fun q => decide (q.last_L < 0)) := by
            rw [List.mem_filter]
            exact ⟨hmem, by simpa using hlt⟩
          rw [List.isEmpty_iff] at hclamp
          rw [hclamp] at hmem2
          cases hmem2
        rw [hrow, if_neg hgt]
      · cases hok
        simp only [List.getElem?_map, hrow, Option.map_some']
        by_cases hlt : p.last_L < 0
        · rw [if_pos hlt]
          simp [hlt]
        · rw [if_neg hlt]
          simp [hlt]
  · intro r ws sp hsp hok
    simp only [Collect] at hok
    rw [hsp] at hok
    cases hok
    simp [List.getElem?_map, hp, collectRow_ne tid amount0 amount1 p hne]

/-- C8, counterexample: a pandas `Burn` of position 1 overwrites the
last event coordinates of the untouched position 2 with this event's
coordinates (`position_last_update_state` assigns whole columns): its
`last_blockNumber` changes from its own 5 to the event's 99. -/
theorem c8_counterexample :
    twoPool.positions.map (fun p => (p.tokenId, p.last_blockNumber)) = [(1, 3), (2, 5)] ∧
    (getOk (Burn twoPool (-2) 2 3 1 1 "lpA" cEvt 1)).positions.map
      (fun p => (p.tokenId, p.last_blockNumber)) = [(1, 99), (2, 99)] := by
  refine ⟨by with_unfolding_all decide, by with_unfolding_all decide⟩

/-- Closed instance of `c8_amended_frame` on `twoPool`, exercising all
six handler conjuncts. -/
theorem c8_amended_witness :
    ((getOk (Mint_polars ratOracle twoPool (-2) 2 3 3 4 "lpA" cEvt 1)).positions[1]?
        = some otherPos ∨
     (getOk (Mint_polars ratOracle twoPool (-2) 2 3 3 4 "lpA" cEvt 1)).positions[1]?
        = some (setLastCoords cEvt otherPos)) ∧
    (getOk (Burn_polars twoPool (-2) 2 3 3 4 "lpA" cEvt 1)).positions[1]?
        = some (if otherPos.last_L ≤ 8184 then { setLastCoords cEvt otherPos with last_L := 0 }
                else setLastCoords cEvt otherPos) ∧
    (getOk (Collect_polars ratOracle twoPool (-2) 2 3 4 "lpA" cEvt 1)).positions[1]?
        = some (setLastCoords cEvt (refreshRow ratOracle 1 otherPos)) ∧
    ((getOk (Mint ratOracle twoPool (-2) 2 3 3 4 "lpA" cEvt 1)).positions[1]?
        = some otherPos ∨
     (getOk (Mint ratOracle twoPool (-2) 2 3 3 4 "lpA" cEvt 1)).positions[1]?
        = some (setLastCoords cEvt { otherPos with increase_L := otherPos.last_L })) ∧
    (getOk (Burn twoPool (-2) 2 3 3 4 "lpA" cEvt 1)).positions[1]?
        = some (if otherPos.last_L < 0 then { setLastCoords cEvt otherPos with last_L := 0 }
                else setLastCoords cEvt otherPos) ∧
    (getOk (Collect ratOracle twoPool (-2) 2 3 4 "lpA" cEvt 1)).positions[1]?
        = some (setLastCoords cEvt (refreshRow ratOracle 1 otherPos)) := by
  have h := c8_amended_frame ratOracle twoPool (-2) 2 3 3 4 "lpA" cEvt 1 1 otherPos
    (by with_unfolding_all decide) (by with_unfolding_all decide)
  refine ⟨h.1 (getOk (Mint_polars ratOracle twoPool (-2) 2 3 3 4 "lpA" cEvt 1))
            (getWs (Mint_polars ratOracle twoPool (-2) 2 3 3 4 "lpA" cEvt 1))
            (by with_unfolding_all decide),
          h.2.1 (getOk (Burn_polars twoPool (-2) 2 3 3 4 "lpA" cEvt 1))
            (getWs (Burn_polars twoPool (-2) 2 3 3 4 "lpA" cEvt 1))
            (by with_unfolding_all decide),
          h.2.2.1 (getOk (Collect_polars ratOracle twoPool (-2) 2 3 4 "lpA" cEvt 1))
            (getWs (Collect_polars ratOracle twoPool (-2) 2 3 4 "lpA" cEvt 1))
            1 rfl (by with_unfolding_all decide),
          h.2.2.2.1 (getOk (Mint ratOracle twoPool (-2) 2 3 3 4 "lpA" cEvt 1))
            (getWs (Mint ratOracle twoPool (-2) 2 3 3 4 "lpA" cEvt 1))
            (by with_unfolding_all decide),
          h.2.2.2.2.1 (getOk (Burn twoPool (-2) 2 3 3 4 "lpA" cEvt 1))
            (getWs (Burn twoPool (-2) 2 3 3 4 "lpA" cEvt 1))
            (by with_unfolding_all decide),
          h.2.2.2.2.2 (getOk (Collect ratOracle twoPool (-2) 2 3 4 "lpA" cEvt 1))
            (getWs (Collect ratOracle twoPool (-2) 2 3 4 "lpA" cEvt 1))
            1 rfl (by with_unfolding_all decide)⟩

/-- C6, counterexample: the polars `Collect` *does* raise on a mismatch
— here a `tokenId` matching zero positions raises `BurnMintMatchError`
(the polars source reuses the burn exception and wording at line 379),
so "the handler does not raise" is false for the polars variant. -/
theorem c6_counterexample :
    (basePool.positions.filter (fun p => decide (p.tokenId = 2))).length = 0 ∧
    Collect_polars ratOracle basePool (-2) 2 1 0 "rcpt" cEvt 2 = .error .burnMintMatch := by
  refine ⟨by with_unfolding_all decide, by with_unfolding_all decide⟩

/-- C6, amended: on a `Collect` whose `tokenId` matches zero or several
positions, the pandas handler does not raise — the constructed
`CollectMatchError` is discarded, no warning is emitted, and the collect
updates are applied — while the polars handler raises
`BurnMintMatchError`. -/
theorem c6_amended_mismatch_nonfatal_in_pandas (o : MathO) (pool : Pool)
    (tickLower tickUpper : ℤ) (amount0 amount1 : ℚ) (recipient : String)
    (c : EvtCoords) (tokenId : ℤ) (sp : ℚ)
    (hsp : pool.sqrtPrice = some sp)
    (hcount : (pool.positions.filter (fun p => decide (p.tokenId = tokenId))).length ≠ 1) :
    isOkB (Collect o pool tickLower tickUpper amount0 amount1 recipient c tokenId) = true ∧
    getWs (Collect o pool tickLower tickUpper amount0 amount1 recipient c tokenId) = [] ∧
    Collect_polars o pool tickLower tickUpper amount0 amount1 recipient c tokenId
      = .error .burnMintMatch := by
  refine ⟨?_, ?_, ?_⟩
  · simp [Collect, hsp, isOkB]
  · simp [Collect, hsp, getWs]
  · simp [Collect_polars, hcount]

/-- Closed instance of `c6_amended_mismatch_nonfatal_in_pandas`. -/
theorem c6_witness :
    isOkB (Collect ratOracle basePool (-2) 2 1 0 "rcpt" cEvt 2) = true ∧
    getWs (Collect ratOracle basePool (-2) 2 1 0 "rcpt" cEvt 2) = [] ∧
    Collect_polars ratOracle basePool (-2) 2 1 0 "rcpt" cEvt 2 = .error .burnMintMatch :=
  c6_amended_mismatch_nonfatal_in_pandas ratOracle basePool (-2) 2 1 0 "rcpt" cEvt 2 1
    rfl (by with_unfolding_all decide)

/-- C3: the tolerance check is mis-parenthesised — `not` binds only to
the first comparison in
`not (ceil(tick+tol*100) >= tick_next) and (floor(tick-tol*100) <= tick_next)`
— so a reported tick *far above* the computed one never raises.  Here the
reported tick is 100 while the computed `tick_next` is −2 (also the value
the float source computes: `log_{√1.0001}(40000/40003) ≈ −1.50` rounds to
−2), a 102-tick gap versus the ±2.5 window; the claim demands
`SwapMisalignment`, but the handler only warns and then commits the
reported price (`sqrtPriceX96/2⁹⁶ = 1`) and reported tick 100 with the
computed liquidity 5. -/
theorem c3_code_bug :
    getWs (Swap ratOracle 4 basePool (3/8000) 0 cEvt (some Q96) (some 100) (some 5)
        false (1/40) false) = [.swapTickMismatch] ∧
    (getOk (Swap ratOracle 4 basePool (3/8000) 0 cEvt (some Q96) (some 100) (some 5)
        false (1/40) false)).tick = some 100 ∧
    qpair ((getOk (Swap ratOracle 4 basePool (3/8000) 0 cEvt (some Q96) (some 100) (some 5)
        false (1/40) false)).sqrtPrice.getD 0) = (1, 1) ∧
    qpair ((getOk (Swap ratOracle 4 basePool (3/8000) 0 cEvt (some Q96) (some 100) (some 5)
        false (1/40) false)).liquidity) = (5, 1) ∧
    ratOracle.sqrtPriceToTick (40000/40003) = -2 := by
  refine ⟨?_, ?_, ?_, ?_, by with_unfolding_all decide⟩ <;> with_unfolding_all decide

/-- C4: the pandas `Mint` on an existing `tokenId` (line 159) rebuilds
the whole `increase_L` column from the already-updated `last_L` column:
minting 10 more onto position 1 (`last_L` 5, `increase_L` 0) should per
the claim set `increase_L` to 10, but pandas sets it to
`last_L + 2·amount = 25` and overwrites the untouched position 2's
`increase_L` (3) with its `last_L` (7).  The polars variant (line 208)
accumulates correctly; `last_L`, `start_L` and the holdings columns
behave as claimed in both. -/
theorem c4_code_bug :
    twoPool.positions.map (fun p => (p.tokenId, p.increase_L)) = [(1, 0), (2, 3)] ∧
    (getOk (Mint ratOracle twoPool (-2) 2 10 3 4 "lpA" cEvt 1)).positions.map
        (fun p => (p.tokenId, p.increase_L)) = [(1, 25), (2, 7)] ∧
    (getOk (Mint_polars ratOracle twoPool (-2) 2 10 3 4 "lpA" cEvt 1)).positions.map
        (fun p => (p.tokenId, p.increase_L)) = [(1, 10), (2, 3)] ∧
    (getOk (Mint ratOracle twoPool (-2) 2 10 3 4 "lpA" cEvt 1)).positions.map
        (fun p => (p.tokenId, p.last_L, p.start_L)) = [(1, 15, 5), (2, 7, 7)] ∧
    (getOk (Mint ratOracle twoPool (-2) 2 10 3 4 "lpA" cEvt 1)).positions.map
        (fun p => (p.tokenId, p.last_token0_holdings, p.increase_token0_holdings))
      = [(1, 4, 3), (2, 1, 0)] := by
  refine ⟨?_, ?_, ?_, ?_, ?_⟩ <;> with_unfolding_all decide

/-! ## Claim theorems -/

/-- C10: there is a valid `Swap` call — exactly one strictly positive
input amount (`amount0 = 1/2000`, `amount1 = 0`), one active position, no
reconciliation triplet — whose traversal leaves the loop through the
boundary-crossing branch consuming the input exactly (the in-range
reserves at the second sub-range equal the remaining input exactly, so
`> amount0_a` is false and the crossing subtraction zeroes it), so
`sqrtPrice_next`/`tick_next` are never assigned; the state commit then
reads the unassigned local and the call dies with `NameError`. -/
theorem c10_exact_consumption_reads_unassigned_local :
    swapDirection (1/2000) 0 = some true ∧
    (basePool.positions.filter activeB).length = 1 ∧
    Swap ratOracle 4 basePool (1/2000) 0 cEvt none none none false (1/40) false
      = .error .nameError := by
  refine ⟨by with_unfolding_all decide, by with_unfolding_all decide, ?_⟩
  with_unfolding_all decide

/-- C2: the claim "`SwapAmountError` exactly when not exactly one of the
amounts is positive" fails: with `amount0 = amount1 = 1` (both positive)
the handler raises nothing — `zeroForOne` is first set to `True` and then
silently overwritten with `False`, and the swap proceeds as a oneForZero
swap to a normal return — while with neither amount positive it does
raise `SwapAmountError`.  This contradicts the source's own docstring for
`SwapAmountError` ("Raise when swap has two positive amounts"). -/
theorem c2_both_positive_not_rejected :
    swapDirection 1 1 = some false ∧
    isOkB (Swap ratOracle 4 bigPool 1 1 cEvt none none none false (1/40) false) = true ∧
    Swap ratOracle 4 bigPool 0 0 cEvt none none none false (1/40) false
      = .error .swapAmount := by
  refine ⟨by with_unfolding_all decide, ?_, by with_unfolding_all decide⟩
  with_unfolding_all decide

/-- C7: `Initialize` called with only `price` supplied crashes with a
`TypeError` instead of succeeding: the `price` branch computes
`self.sqrtPriceX96 = sqrtPrice * self.Q96` from the *parameter*
`sqrtPrice`, which is `None` — for every oracle, prior pool state,
optional tick and warn flag. -/
theorem c7_initialize_price_only_typeError (o : MathO) (pool : Pool)
    (tick : Option ℤ) (warn : Bool) :
    Initialize o pool none none (some 4) tick warn = .error .typeError := by
  with_unfolding_all rfl

/-- Closed instance of `c7_initialize_price_only_typeError`. -/
theorem c7_witness :
    Initialize ratOracle basePool none none (some 4) none false = .error .typeError :=
  c7_initialize_price_only_typeError ratOracle basePool none false

/-- C9, counterexample: the claim promises an iteration ceiling on the
order of 10⁶ and a `SwapNonTermination` failure beyond it.  The source
has neither (no such exception class even exists): a swap against a store
with no active position is still inside the loop after 10⁶ + 1
iterations — the model's fuel artifact `outOfFuel`, not any
`SwapNonTermination`, and `Err` faithfully has no such constructor. -/
theorem c9_counterexample :
    Swap ratOracle (10 ^ 6 + 1) noLiqPool 1 0 cEvt none none none false (1/40) false
      = .error .outOfFuel :=
  swap_noLiqPool_never_terminates ratOracle (10 ^ 6 + 1) cEvt

/-- C9, amended: the traversal loop of `Swap` has no iteration ceiling
and never raises any non-termination error: on a pool whose store has no
active position, for every fuel bound `n` the traversal is still running
(`outOfFuel`) — the Python loop simply never terminates. -/
theorem c9_amended_no_iteration_ceiling (o : MathO) (n : ℕ) (c : EvtCoords) :
    Swap o n noLiqPool 1 0 c none none none false (1/40) false = .error .outOfFuel :=
  swap_noLiqPool_never_terminates o n c

/-- Instance of `c9_amended_no_iteration_ceiling` at a concrete oracle
and fuel. -/
theorem c9_amended_witness :
    Swap ratOracle 42 noLiqPool 1 0 cEvt none none none false (1/40) false
      = .error .outOfFuel :=
  c9_amended_no_iteration_ceiling ratOracle 42 cEvt

lemma posKey_feeUpd0 (perL : ℚ) (actP : Position → Bool) (p : Position) :
    posKey (feeUpd0 perL actP p) = posKey p := by
  unfold feeUpd0; split <;> rfl

lemma posKey_feeUpd1 (perL : ℚ) (actP : Position → Bool) (p : Position) :
    posKey (feeUpd1 perL actP p) = posKey p := by
  unfold feeUpd1; split <;> rfl

lemma map_posKey_map_of_posKey (f : Position → Position)
    (hf : ∀ p, posKey (f p) = posKey p) (l : List Position) :
    (l.map f).map posKey = l.map posKey := by
  rw [List.map_map]
  exact List.map_congr_left (fun p _ => hf p)

lemma zChoice_inr (spacing : ℤ) (s s' : LoopSt) (h : zChoice spacing s = Sum.inr s') :
    s'.pos = s.pos ∧ s'.a0 = s.a0 ∧ s'.spNext = s.spNext ∧ s'.tkNext = s.tkNext ∧
    s'.Lv = s.Lv := by
  unfold zChoice at h
  split at h
  · split at h
    · split at h
      · cases h
      · split at h <;> (cases h; exact ⟨rfl, rfl, rfl, rfl, rfl⟩)
    · cases h; exact ⟨rfl, rfl, rfl, rfl, rfl⟩
  · cases h

lemma oChoice_inr (spacing : ℤ) (s s' : LoopSt) (h : oChoice spacing s = Sum.inr s') :
    s'.pos = s.pos ∧ s'.a1 = s.a1 ∧ s'.spNext = s.spNext ∧ s'.tkNext = s.tkNext ∧
    s'.Lv = s.Lv := by
  unfold oChoice at h
  split at h
  · split at h
    · split at h
      · cases h
      · split at h <;> (cases h; exact ⟨rfl, rfl, rfl, rfl, rfl⟩)
    · cases h; exact ⟨rfl, rfl, rfl, rfl, rfl⟩
  · cases h

lemma zChoice_inl (spacing : ℤ) (s : LoopSt) (actP : Position → Bool)
    (h : zChoice spacing s = Sum.inl actP) :
    actP = zCov s.ct ∨ actP = zPin s.ct := by
  unfold zChoice at h
  split at h
  · split at h
    · split at h
      · cases h; right; rfl
      · split at h <;> cases h
    · cases h
  · cases h; left; rfl

lemma oChoice_inl (spacing : ℤ) (s : LoopSt) (actP : Position → Bool)
    (h : oChoice spacing s = Sum.inl actP) :
    actP = oCov s.ct ∨ actP = oPin s.ct := by
  unfold oChoice at h
  split at h
  · split at h
    · split at h
      · cases h; right; rfl
      · split at h <;> cases h
    · cases h
  · cases h; left; rfl

lemma oSecond_frame (spacing : ℤ) (s : LoopSt) :
    (oSecond spacing s).pos = s.pos ∧ (oSecond spacing s).a1 = s.a1 ∧
    (oSecond spacing s).spNext = s.spNext ∧ (oSecond spacing s).tkNext = s.tkNext ∧
    (oSecond spacing s).Lv = s.Lv := by
  unfold oSecond
  split
  · split
    · split <;> exact ⟨rfl, rfl, rfl, rfl, rfl⟩
    · exact ⟨rfl, rfl, rfl, rfl, rfl⟩
  · exact ⟨rfl, rfl, rfl, rfl, rfl⟩

lemma posKey_fields (p q : Position) (h : posKey p = posKey q) :
    p.tokenId = q.tokenId ∧ p.tickLower = q.tickLower ∧ p.tickUpper = q.tickUpper ∧
    p.last_L = q.last_L := by
  simp [posKey, Prod.ext_iff] at h
  exact ⟨h.1, h.2.1, h.2.2.1, h.2.2.2⟩

lemma zCov_posKey (ct : ℤ) (p q : Position) (h : posKey p = posKey q) :
    zCov ct p = zCov ct q := by
  obtain ⟨h1, h2, h3, h4⟩ := posKey_fields p q h
  simp [zCov, h2, h3, h4]

lemma zPin_posKey (ct : ℤ) (p q : Position) (h : posKey p = posKey q) :
    zPin ct p = zPin ct q := by
  obtain ⟨h1, h2, h3, h4⟩ := posKey_fields p q h
  simp [zPin, h2, h4]

lemma oCov_posKey (ct : ℤ) (p q : Position) (h : posKey p = posKey q) :
    oCov ct p = oCov ct q := by
  obtain ⟨h1, h2, h3, h4⟩ := posKey_fields p q h
  simp [oCov, h2, h3, h4]

lemma oPin_posKey (ct : ℤ) (p q : Position) (h : posKey p = posKey q) :
    oPin ct p = oPin ct q := by
  obtain ⟨h1, h2, h3, h4⟩ := posKey_fields p q h
  simp [oPin, h3, h4]

lemma sumL_filter_congr (P : Position → Bool)
    (hP : ∀ p q, posKey p = posKey q → P p = P q) :
    ∀ l1 l2 : List Position, l1.map posKey = l2.map posKey →
      sumL (l1.filter P) = sumL (l2.filter P) := by
  intro l1
  induction l1 with
  | nil => intro l2 h; cases l2 with
    | nil => rfl
    | cons b t => cases h
  | cons a t ih =>
    intro l2 h
    cases l2 with
    | nil => cases h
    | cons b t2 =>
      simp only [List.map_cons, List.cons.injEq] at h
      obtain ⟨hab, ht⟩ := h
      have hL := (posKey_fields a b hab).2.2.2
      have hPa : P a = P b := hP a b hab
      rw [List.filter_cons, List.filter_cons, hPa]
      have hrec := ih t2 ht
      cases hb : P b with
      | true =>
        simp only [hb, if_pos trivial]
        simp only [sumL, List.map_cons, List.sum_cons] at hrec ⊢
        rw [hL, hrec]
      | false =>
        simp only [hb, Bool.false_eq_true, if_false]
        exact hrec

lemma zStep_done_spec (o : MathO) (sp : ℤ) (fee : ℚ) (s s' : LoopSt)
    (h : zStep o sp fee s = .done s') :
    s'.pos.map posKey = s.pos.map posKey ∧ s'.ct = s.ct ∧
    ∃ pn actP, (actP = zCov s.ct ∨ actP = zPin s.ct) ∧
      s'.spNext = some pn ∧ s'.tkNext = some (o.sqrtPriceToTick pn) ∧
      s'.Lv = some (sumL (s.pos.filter actP)) := by
  unfold zStep at h
  cases hch : zChoice sp s with
  | inr s2 => rw [hch] at h; cases h
  | inl actP =>
    rw [hch] at h
    dsimp only at h
    split at h
    · cases h
      refine ⟨map_posKey_map_of_posKey _ (posKey_feeUpd0 _ _) _, rfl, _, actP,
        zChoice_inl sp s actP hch, rfl, rfl, rfl⟩
    · cases h

lemma zStep_next_spec (o : MathO) (sp : ℤ) (fee : ℚ) (s s' : LoopSt)
    (h : zStep o sp fee s = .next s') :
    s'.pos.map posKey = s.pos.map posKey ∧ s'.spNext = s.spNext ∧ s'.tkNext = s.tkNext := by
  unfold zStep at h
  cases hch : zChoice sp s with
  | inr s2 =>
    rw [hch] at h
    obtain ⟨h1, _, h3, h4, _⟩ := zChoice_inr sp s s2 hch
    cases h
    exact ⟨by rw [h1], h3, h4⟩
  | inl actP =>
    rw [hch] at h
    dsimp only at h
    split at h
    · cases h
    · cases h
      exact ⟨map_posKey_map_of_posKey _ (posKey_feeUpd0 _ _) _, rfl, rfl⟩

lemma oStep_done_spec (o : MathO) (sp : ℤ) (fee : ℚ) (s s' : LoopSt)
    (h : oStep o sp fee s = .done s') :
    s'.pos.map posKey = s.pos.map posKey ∧ s'.ct = s.ct ∧
    ∃ pn actP, (actP = oCov s.ct ∨ actP = oPin s.ct) ∧
      s'.spNext = some pn ∧ s'.tkNext = some (o.sqrtPriceToTick pn) ∧
      s'.Lv = some (sumL (s.pos.filter actP)) := by
  unfold oStep at h
  cases hch : oChoice sp s with
  | inr s2 => rw [hch] at h; cases h
  | inl actP =>
    rw [hch] at h
    dsimp only at h
    split at h
    · cases h
    · split at h
      · cases h
        refine ⟨map_posKey_map_of_posKey _ (posKey_feeUpd1 _ _) _, rfl, _, actP,
          oChoice_inl sp s actP hch, rfl, rfl, rfl⟩
      · cases h

lemma oStep_next_spec (o : MathO) (sp : ℤ) (fee : ℚ) (s s' : LoopSt)
    (h : oStep o sp fee s = .next s') :
    s'.pos.map posKey = s.pos.map posKey ∧ s'.spNext = s.spNext ∧ s'.tkNext = s.tkNext := by
  unfold oStep at h
  cases hch : oChoice sp s with
  | inr s2 =>
    rw [hch] at h
    obtain ⟨h1, _, h3, h4, _⟩ := oChoice_inr sp s s2 hch
    cases h
    exact ⟨by rw [h1], h3, h4⟩
  | inl actP =>
    rw [hch] at h
    dsimp only at h
    split at h
    · cases h
      obtain ⟨h1, _, h3, h4, _⟩ := oSecond_frame sp s
      exact ⟨by rw [h1], h3, h4⟩
    · split at h
      · cases h
      · cases h
        exact ⟨map_posKey_map_of_posKey _ (posKey_feeUpd1 _ _) _, rfl, rfl⟩

lemma zLoop_spec (o : MathO) (sp : ℤ) (fee : ℚ) :
    ∀ (n : ℕ) (s ls : LoopSt), zLoop o sp fee n s = .ok ls →
      ls.pos.map posKey = s.pos.map posKey ∧
      ((ls.spNext = s.spNext ∧ ls.tkNext = s.tkNext) ∨
       (∃ pn l, ls.spNext = some pn ∧ ls.tkNext = some (o.sqrtPriceToTick pn) ∧
          ls.Lv = some l ∧
          (l = sumL (s.pos.filter (zCov ls.ct)) ∨ l = sumL (s.pos.filter (zPin ls.ct))))) := by
  intro n
  induction n with
  | zero =>
    intro s ls h
    rw [zLoop] at h
    split at h
    · cases h
    · cases h; exact ⟨rfl, Or.inl ⟨rfl, rfl⟩⟩
  | succ n ih =>
    intro s ls h
    rw [zLoop] at h
    split at h
    · cases hstep : zStep o sp fee s with
      | done s' =>
        rw [hstep] at h
        cases h
        obtain ⟨hpos, hct, pn, actP, hact, hsp2, htk, hLv⟩ := zStep_done_spec o sp fee s ls hstep
        refine ⟨hpos, Or.inr ⟨pn, sumL (s.pos.filter actP), hsp2, htk, hLv, ?_⟩⟩
        rw [hct]
        cases hact with
        | inl hc => left; rw [hc]
        | inr hc => right; rw [hc]
      | next s' =>
        rw [hstep] at h
        obtain ⟨hpos, hsp2, htk⟩ := zStep_next_spec o sp fee s s' hstep
        obtain ⟨hpos2, hdisj⟩ := ih s' ls h
        refine ⟨by rw [hpos2, hpos], ?_⟩
        cases hdisj with
        | inl hd => exact Or.inl ⟨by rw [hd.1, hsp2], by rw [hd.2, htk]⟩
        | inr hd =>
          obtain ⟨pn, l, h1, h2, h3, h4⟩ := hd
          refine Or.inr ⟨pn, l, h1, h2, h3, ?_⟩
          cases h4 with
          | inl hx => left; rw [hx]; exact sumL_filter_congr _ (zCov_posKey ls.ct) _ _ hpos
          | inr hx => right; rw [hx]; exact sumL_filter_congr _ (zPin_posKey ls.ct) _ _ hpos
    · cases h; exact ⟨rfl, Or.inl ⟨rfl, rfl⟩⟩

lemma oLoop_spec (o : MathO) (sp : ℤ) (fee : ℚ) :
    ∀ (n : ℕ) (s ls : LoopSt), oLoop o sp fee n s = .ok ls →
      ls.pos.map posKey = s.pos.map posKey ∧
      ((ls.spNext = s.spNext ∧ ls.tkNext = s.tkNext) ∨
       (∃ pn l, ls.spNext = some pn ∧ ls.tkNext = some (o.sqrtPriceToTick pn) ∧
          ls.Lv = some l ∧
          (l = sumL (s.pos.filter (oCov ls.ct)) ∨ l = sumL (s.pos.filter (oPin ls.ct))))) := by
  intro n
  induction n with
  | zero =>
    intro s ls h
    rw [oLoop] at h
    split at h
    · cases h
    · cases h; exact ⟨rfl, Or.inl ⟨rfl, rfl⟩⟩
  | succ n ih =>
    intro s ls h
    rw [oLoop] at h
    split at h
    · cases hstep : oStep o sp fee s with
      | done s' =>
        rw [hstep] at h
        cases h
        obtain ⟨hpos, hct, pn, actP, hact, hsp2, htk, hLv⟩ := oStep_done_spec o sp fee s ls hstep
        refine ⟨hpos, Or.inr ⟨pn, sumL (s.pos.filter actP), hsp2, htk, hLv, ?_⟩⟩
        rw [hct]
        cases hact with
        | inl hc => left; rw [hc]
        | inr hc => right; rw [hc]
      | next s' =>
        rw [hstep] at h
        obtain ⟨hpos, hsp2, htk⟩ := oStep_next_spec o sp fee s s' hstep
        obtain ⟨hpos2, hdisj⟩ := ih s' ls h
        refine ⟨by rw [hpos2, hpos], ?_⟩
        cases hdisj with
        | inl hd => exact Or.inl ⟨by rw [hd.1, hsp2], by rw [hd.2, htk]⟩
        | inr hd =>
          obtain ⟨pn, l, h1, h2, h3, h4⟩ := hd
          refine Or.inr ⟨pn, l, h1, h2, h3, ?_⟩
          cases h4 with
          | inl hx => left; rw [hx]; exact sumL_filter_congr _ (oCov_posKey ls.ct) _ _ hpos
          | inr hx => right; rw [hx]; exact sumL_filter_congr _ (oPin_posKey ls.ct) _ _ hpos
    · cases h; exact ⟨rfl, Or.inl ⟨rfl, rfl⟩⟩

lemma posKey_setLastCoords (c : EvtCoords) (p : Position) :
    posKey (setLastCoords c p) = posKey p := rfl

lemma posKey_refreshRow (o : MathO) (sp : ℚ) (p : Position) :
    posKey (refreshRow o sp p) = posKey p := rfl

lemma swapFinish_spec (o : MathO) (pool : Pool) (c : EvtCoords) (ls : LoopSt)
    (spC : ℚ) (tkC : Option ℤ) (liqC : ℚ) (ws0 : List Warn) (s : Pool) (ws : List Warn)
    (h : swapFinish o pool c ls spC tkC liqC ws0 = .ok (s, ws)) :
    s.sqrtPrice = some spC ∧ s.tick = tkC ∧ s.liquidity = liqC ∧ ws = ws0 ∧
    s.positions.map posKey = ls.pos.map posKey := by
  unfold swapFinish at h
  cases h
  refine ⟨rfl, rfl, rfl, rfl, ?_⟩
  rw [map_posKey_map_of_posKey _ (posKey_setLastCoords c),
      map_posKey_map_of_posKey _ (posKey_refreshRow o spC)]

lemma swapCommit_none_triplet (o : MathO) (pool : Pool) (c : EvtCoords) (ls : LoopSt)
    (wa : Bool) (tol : ℚ) (pe : Bool) (s : Pool) (ws : List Warn)
    (h : swapCommit o pool c ls none none none wa tol pe = .ok (s, ws)) :
    ∃ pn tn l, ls.spNext = some pn ∧ ls.tkNext = some tn ∧ ls.Lv = some l ∧
      s.sqrtPrice = some pn ∧ s.tick = some tn ∧ s.liquidity = l ∧
      s.positions.map posKey = ls.pos.map posKey := by
  simp only [swapCommit, truthyQ, truthyI] at h
  rw [if_pos (by simp)] at h
  cases hpn : ls.spNext with
  | none => rw [hpn] at h; cases h
  | some pn =>
    rw [hpn] at h
    cases htn : ls.tkNext with
    | none => rw [htn] at h; cases h
    | some tn =>
      rw [htn] at h
      cases hl : ls.Lv with
      | none => rw [hl] at h; cases h
      | some l =>
        rw [hl] at h
        obtain ⟨h1, h2, h3, h4, h5⟩ := swapFinish_spec o pool c ls pn (some tn) l [] s ws h
        exact ⟨pn, tn, l, rfl, rfl, rfl, h1, h2, h3, h5⟩

lemma swapTail_ok (o : MathO) (pool1 : Pool) (c : EvtCoords) (spx : Option ℚ)
    (tk : Option ℤ) (liq : Option ℚ) (wa : Bool) (tol : ℚ) (pe : Bool)
    (r : Except Err LoopSt) (s : Pool) (ws : List Warn)
    (h : swapTail o pool1 c spx tk liq wa tol pe r = .ok (s, ws)) :
    ∃ ls, r = .ok ls ∧ swapCommit o pool1 c ls spx tk liq wa tol pe = .ok (s, ws) := by
  cases r with
  | error e => cases h
  | ok ls => exact ⟨ls, rfl, h⟩

/-- C1: when none of the reconciliation values `sqrtPriceX96`, `tick`,
`liquidity` is provided, a successful `Swap` commits the traversal's
computed state: the pool's `sqrtPrice` is the computed next sqrt price
`pn`, its `tick` is `sqrtPriceToTick pn`, and its `liquidity` is the
in-range liquidity sum of the last traversed sub-range (one of the four
coverage/pin filters over the original position store, at the final
current tick). -/
theorem c1_commits_computed_state (o : MathO) (fuel : ℕ) (pool : Pool)
    (amount0 amount1 : ℚ) (c : EvtCoords) (wa : Bool) (tol : ℚ) (pe : Bool)
    (s : Pool) (ws : List Warn)
    (hok : Swap o fuel pool amount0 amount1 c none none none wa tol pe = .ok (s, ws)) :
    ∃ pn l, s.sqrtPrice = some pn ∧ s.tick = some (o.sqrtPriceToTick pn) ∧
      s.liquidity = l ∧
      ∃ ct, l = sumL (pool.positions.filter (zCov ct)) ∨
            l = sumL (pool.positions.filter (zPin ct)) ∨
            l = sumL (pool.positions.filter (oCov ct)) ∨
            l = sumL (pool.positions.filter (oPin ct)) := by
  simp only [Swap] at hok
  cases hdir : swapDirection amount0 amount1 with
  | none => rw [hdir] at hok; cases hok
  | some z =>
    rw [hdir] at hok
    cases htk : pool.tick with
    | none => rw [htk] at hok; cases hok
    | some tk0 =>
      rw [htk] at hok
      cases hsp : pool.sqrtPrice with
      | none => rw [hsp] at hok; cases hok
      | some sp0 =>
        rw [hsp] at hok
        obtain ⟨ls, hloop, hcommit⟩ := swapTail_ok _ _ _ _ _ _ _ _ _ _ _ _ hok
        obtain ⟨pn, tn, l, hpn, htn, hl, hs1, hs2, hs3, hs4⟩ :=
          swapCommit_none_triplet o _ c ls wa tol pe s ws hcommit
        cases z with
        | true =>
          rw [if_pos rfl] at hloop
          obtain ⟨hposk, hdisj⟩ := zLoop_spec o pool.tickSpacing pool.fee fuel _ ls hloop
          cases hdisj with
          | inl hd => rw [hd.1] at hpn; cases hpn
          | inr hd =>
            obtain ⟨pn2, l2, h1, h2, h3, h4⟩ := hd
            rw [hpn] at h1; rw [htn] at h2; rw [hl] at h3
            cases h1; cases h2; cases h3
            refine ⟨pn, l, hs1, ?_, hs3, ls.ct, ?_⟩
            · exact hs2
            · cases h4 with
              | inl hx => exact Or.inl hx
              | inr hx => exact Or.inr (Or.inl hx)
        | false =>
          rw [if_neg (by simp)] at hloop
          obtain ⟨hposk, hdisj⟩ := oLoop_spec o pool.tickSpacing pool.fee fuel _ ls hloop
          cases hdisj with
          | inl hd => rw [hd.1] at hpn; cases hpn
          | inr hd =>
            obtain ⟨pn2, l2, h1, h2, h3, h4⟩ := hd
            rw [hpn] at h1; rw [htn] at h2; rw [hl] at h3
            cases h1; cases h2; cases h3
            refine ⟨pn, l, hs1, ?_, hs3, ls.ct, ?_⟩
            · exact hs2
            · cases h4 with
              | inl hx => exact Or.inr (Or.inr (Or.inl hx))
              | inr hx => exact Or.inr (Or.inr (Or.inr hx))

lemma lastLs_of_posKey (l1 l2 : List Position) (h : l1.map posKey = l2.map posKey) :
    lastLs l1 = lastLs l2 := by
  have hc : ∀ l : List Position, lastLs l = (l.map posKey).map (fun t => t.2.2.2) := by
    intro l; rw [List.map_map]; rfl
  rw [hc, hc, h]

lemma allNonneg_of_posKey (l1 l2 : List Position) (h : l1.map posKey = l2.map posKey) :
    allNonneg l1 = allNonneg l2 := by
  unfold allNonneg; rw [lastLs_of_posKey l1 l2 h]

lemma allNonneg_iff (l : List Position) : allNonneg l = true ↔ ∀ p ∈ l, 0 ≤ p.last_L := by
  simp [allNonneg, lastLs, List.all_eq_true]

lemma mintRowPandas_last_L (tid : ℤ) (a a0 a1 : ℚ) (p : Position) :
    (mintRowPandas tid a a0 a1 p).last_L =
      if p.tokenId = tid then p.last_L + a else p.last_L := by
  by_cases h : p.tokenId = tid <;> simp [mintRowPandas, h]

lemma mintRowPolars_last_L (tid : ℤ) (a a0 a1 : ℚ) (p : Position) :
    (mintRowPolars tid a a0 a1 p).last_L =
      if p.tokenId = tid then p.last_L + a else p.last_L := by
  by_cases h : p.tokenId = tid <;> simp [mintRowPolars, h]

lemma collectRow_last_L (tid : ℤ) (a0 a1 : ℚ) (p : Position) :
    (collectRow tid a0 a1 p).last_L = p.last_L := by
  unfold collectRow; split <;> rfl

lemma swapCommit_posKey (o : MathO) (pool : Pool) (c : EvtCoords) (ls : LoopSt)
    (spx : Option ℚ) (tk : Option ℤ) (liq : Option ℚ) (wa : Bool) (tol : ℚ) (pe : Bool)
    (s : Pool) (ws : List Warn)
    (h : swapCommit o pool c ls spx tk liq wa tol pe = .ok (s, ws)) :
    s.positions.map posKey = ls.pos.map posKey := by
  simp only [swapCommit] at h
  repeat' split at h
  all_goals try cases h
  all_goals first
    | exact (swapFinish_spec _ _ _ _ _ _ _ _ _ _ h).2.2.2.2
    | rw [map_posKey_map_of_posKey _ (posKey_setLastCoords c),
          map_posKey_map_of_posKey _ (posKey_refreshRow o _)]

/-- C5: for a store whose positions all have `last_L >= 0` and a
nonnegative mint amount, every handler that returns without raising
leaves every position with `last_L >= 0`; and a pandas `Burn` whose
subtraction would drive the burned row's `last_L` negative clamps that
row to 0 and emits the clamp warning. -/
theorem c5_positions_stay_nonnegative (o : MathO) (fuel : ℕ) (pool : Pool)
    (tl tu : ℤ) (amtM amtB amount0 amount1 : ℚ) (sender : String) (c : EvtCoords)
    (tid : ℤ) (ospq ospx opr : Option ℚ) (otk : Option ℤ) (warn wa pe : Bool)
    (tol : ℚ) (oliq : Option ℚ)
    (hpool : allNonneg pool.positions = true) (hamt : 0 ≤ amtM) :
    (∀ r ws, Initialize o pool ospq ospx opr otk warn = .ok (r, ws) →
       allNonneg r.positions = true) ∧
    (∀ r ws, Mint o pool tl tu amtM amount0 amount1 sender c tid = .ok (r, ws) →
       allNonneg r.positions = true) ∧
    (∀ r ws, Mint_polars o pool tl tu amtM amount0 amount1 sender c tid = .ok (r, ws) →
       allNonneg r.positions = true) ∧
    (∀ r ws, Burn pool tl tu amtB amount0 amount1 sender c tid = .ok (r, ws) →
       allNonneg r.positions = true) ∧
    (∀ r ws, Burn_polars pool tl tu amtB amount0 amount1 sender c tid = .ok (r, ws) →
       allNonneg r.positions = true) ∧
    (∀ r ws, Collect o pool tl tu amount0 amount1 sender c tid = .ok (r, ws) →
       allNonneg r.positions = true) ∧
    (∀ r ws, Collect_polars o pool tl tu amount0 amount1 sender c tid = .ok (r, ws) →
       allNonneg r.positions = true) ∧
    (∀ r ws, Swap o fuel pool amount0 amount1 c ospx otk oliq wa tol pe = .ok (r, ws) →
       allNonneg r.positions = true) ∧
    (∀ (r : Pool) (ws : List Warn) (i : ℕ) (q : Position), Burn pool tl tu amtB amount0 amount1 sender c tid = .ok (r, ws) →
       pool.positions[i]? = some q → q.tokenId = tid → q.last_L - amtB < 0 →
       Warn.burnNegClamp ∈ ws ∧
       ∃ q2, r.positions[i]? = some q2 ∧ q2.last_L = 0) := by
  refine ⟨?_, ?_, ?_, ?_, ?_, ?_, ?_, ?_, ?_⟩
  · -- Initialize never touches the store
    intro r ws hok
    simp only [Initialize] at hok
    repeat' split at hok
    all_goals try cases hok
    all_goals exact hpool
  · -- pandas Mint
    intro r ws hok
    simp only [Mint] at hok
    split at hok
    · cases hok
    · cases hok
      rw [allNonneg_iff]
      intro q hq
      split at hq
      · obtain ⟨p1, hp1, rfl⟩ := List.mem_map.mp hq
        obtain ⟨p0, hp0, rfl⟩ := List.mem_map.mp hp1
        rw [setLastCoords_last_L, mintRowPandas_last_L]
        have h0 := (allNonneg_iff pool.positions).mp hpool p0 hp0
        split
        · linarith
        · exact h0
      · rcases List.mem_append.mp hq with hq1 | hq1
        · exact (allNonneg_iff pool.positions).mp hpool q hq1
        · rw [List.mem_singleton.mp hq1]
          exact hamt
  · -- polars Mint
    intro r ws hok
    simp only [Mint_polars] at hok
    split at hok
    · cases hok
    · cases hok
      rw [allNonneg_iff]
      intro q hq
      split at hq
      · obtain ⟨p1, hp1, rfl⟩ := List.mem_map.mp hq
        obtain ⟨p0, hp0, rfl⟩ := List.mem_map.mp hp1
        rw [setLastCoords_last_L, mintRowPolars_last_L]
        have h0 := (allNonneg_iff pool.positions).mp hpool p0 hp0
        split
        · linarith
        · exact h0
      · rcases List.mem_append.mp hq with hq1 | hq1
        · exact (allNonneg_iff pool.positions).mp hpool q hq1
        · rw [List.mem_singleton.mp hq1]
          exact hamt
  · -- pandas Burn: clamp makes the result nonnegative unconditionally
    intro r ws hok
    simp only [Burn] at hok
    split at hok
    · cases hok
    · split at hok
      · rename_i hempty
        cases hok
        rw [allNonneg_iff]
        intro q hq
        by_contra hneg
        push_neg at hneg
        have hmem : q ∈ ((pool.positions.map (burnRow tid amtB amount0 amount1)).map
            (setLastCoords c)).filter (fun p => decide (p.last_L < 0)) :=
          List.mem_filter.mpr ⟨hq, by simpa using hneg⟩
        rw [List.isEmpty_iff] at hempty
        rw [hempty] at hmem
        cases hmem
      · cases hok
        rw [allNonneg_iff]
        intro q hq
        obtain ⟨p1, hp1, rfl⟩ := List.mem_map.mp hq
        by_cases hneg : p1.last_L < 0
        · simp [hneg]
        · simp [hneg]
          linarith
  · -- polars Burn
    intro r ws hok
    simp only [Burn_polars] at hok
    split at hok
    · cases hok
    · split at hok
      · rename_i hempty
        cases hok
        rw [allNonneg_iff]
        intro q hq
        by_contra hneg
        push_neg at hneg
        have hmem : q ∈ ((pool.positions.map (burnRow tid amtB amount0 amount1)).map
            (setLastCoords c)).filter (fun p => decide (p.last_L ≤ 8184)) :=
          List.mem_filter.mpr ⟨hq, by simp; linarith⟩
        rw [List.isEmpty_iff] at hempty
        rw [hempty] at hmem
        cases hmem
      · cases hok
        rw [allNonneg_iff]
        intro q hq
        obtain ⟨p1, hp1, rfl⟩ := List.mem_map.mp hq
        by_cases hle : p1.last_L ≤ 8184
        · simp [hle]
        · simp [hle]
          linarith
  · -- pandas Collect preserves last_L
    intro r ws hok
    simp only [Collect] at hok
    split at hok
    · cases hok
    · cases hok
      rw [allNonneg_iff]
      intro q hq
      obtain ⟨p1, hp1, rfl⟩ := List.mem_map.mp hq
      obtain ⟨p2, hp2, rfl⟩ := List.mem_map.mp hp1
      obtain ⟨p3, hp3, rfl⟩ := List.mem_map.mp hp2
      rw [setLastCoords_last_L]
      show 0 ≤ (refreshRow _ _ _).last_L
      rw [show ∀ x y p, (refreshRow x y p).last_L = p.last_L from fun _ _ _ => rfl,
          collectRow_last_L]
      exact (allNonneg_iff pool.positions).mp hpool p3 hp3
  · -- polars Collect
    intro r ws hok
    simp only [Collect_polars] at hok
    split at hok
    · cases hok
    · split at hok
      · cases hok
      · cases hok
        rw [allNonneg_iff]
        intro q hq
        obtain ⟨p1, hp1, rfl⟩ := List.mem_map.mp hq
        obtain ⟨p2, hp2, rfl⟩ := List.mem_map.mp hp1
        obtain ⟨p3, hp3, rfl⟩ := List.mem_map.mp hp2
        rw [setLastCoords_last_L]
        show 0 ≤ (refreshRow _ _ _).last_L
        rw [show ∀ x y p, (refreshRow x y p).last_L = p.last_L from fun _ _ _ => rfl,
            collectRow_last_L]
        exact (allNonneg_iff pool.positions).mp hpool p3 hp3
  · -- Swap never modifies last_L
    intro r ws hok
    simp only [Swap] at hok
    cases hdir : swapDirection amount0 amount1 with
    | none => rw [hdir] at hok; cases hok
    | some z =>
      rw [hdir] at hok
      cases htk : pool.tick with
      | none => rw [htk] at hok; cases hok
      | some tk0 =>
        rw [htk] at hok
        cases hsp : pool.sqrtPrice with
        | none => rw [hsp] at hok; cases hok
        | some sp0 =>
          rw [hsp] at hok
          obtain ⟨ls, hloop, hcommit⟩ := swapTail_ok _ _ _ _ _ _ _ _ _ _ _ _ hok
          have hkey := swapCommit_posKey _ _ _ _ _ _ _ _ _ _ _ _ hcommit
          have hkey2 : ls.pos.map posKey = pool.positions.map posKey := by
            cases z with
            | true =>
              rw [if_pos rfl] at hloop
              exact (zLoop_spec o pool.tickSpacing pool.fee fuel _ ls hloop).1
            | false =>
              rw [if_neg (by simp)] at hloop
              exact (oLoop_spec o pool.tickSpacing pool.fee fuel _ ls hloop).1
          rw [allNonneg_of_posKey r.positions pool.positions (by rw [hkey, hkey2])]
          exact hpool
  · -- the pandas Burn clamp on the burned row, with its warning
    intro r ws i q hok hq htid hneg
    simp only [Burn] at hok
    split at hok
    · cases hok
    · have hrow : ((pool.positions.map (burnRow tid amtB amount0 amount1)).map
          (setLastCoords c))[i]? = some (setLastCoords c (burnRow tid amtB amount0 amount1 q)) := by
        simp [List.getElem?_map, hq]
      have hlast : (setLastCoords c (burnRow tid amtB amount0 amount1 q)).last_L
          = q.last_L - amtB := by
        simp [burnRow, htid]
      split at hok
      · rename_i hempty
        exfalso
        have hmem := List.getElem?_mem hrow
        have hmem2 : setLastCoords c (burnRow tid amtB amount0 amount1 q) ∈
            ((pool.positions.map (burnRow tid amtB amount0 amount1)).map
              (setLastCoords c)).filter (fun p => decide (p.last_L < 0)) :=
          List.mem_filter.mpr ⟨hmem, by rw [hlast] at *; simpa using hneg⟩
        rw [List.isEmpty_iff] at hempty
        rw [hempty] at hmem2
        cases hmem2
      · cases hok
        refine ⟨by simp, ?_⟩
        have hneg2 : (setLastCoords c (burnRow tid amtB amount0 amount1 q)).last_L < 0 := by
          rw [hlast]; linarith
        have key : ((List.map (setLastCoords c)
            (List.map (burnRow tid amtB amount0 amount1) pool.positions)).map
            (fun p => if p.last_L < 0 then { p with last_L := 0 } else p))[i]? =
            some { setLastCoords c (burnRow tid amtB amount0 amount1 q) with last_L := 0 } := by
          rw [List.getElem?_map, hrow]
          have hneg3 : (burnRow tid amtB amount0 amount1 q).last_L < 0 := by
            simpa using hneg2
          simp [hneg3]
        exact ⟨_, key, rfl⟩

/-- Instance of `c1_commits_computed_state` at a concrete pool and
amount. -/
theorem c1_witness :
    Swap ratOracle 4 basePool (1/4000) 0 cEvt none none none false (1/40) false
      = .ok (getOk (Swap ratOracle 4 basePool (1/4000) 0 cEvt none none none false (1/40) false),
             getWs (Swap ratOracle 4 basePool (1/4000) 0 cEvt none none none false (1/40) false)) ∧
    (∃ pn l,
      (getOk (Swap ratOracle 4 basePool (1/4000) 0 cEvt none none none false (1/40) false)).sqrtPrice
        = some pn ∧
      (getOk (Swap ratOracle 4 basePool (1/4000) 0 cEvt none none none false (1/40) false)).tick
        = some (ratOracle.sqrtPriceToTick pn) ∧
      (getOk (Swap ratOracle 4 basePool (1/4000) 0 cEvt none none none false (1/40) false)).liquidity
        = l ∧
      ∃ ct, l = sumL (basePool.positions.filter (zCov ct)) ∨
            l = sumL (basePool.positions.filter (zPin ct)) ∨
            l = sumL (basePool.positions.filter (oCov ct)) ∨
            l = sumL (basePool.positions.filter (oPin ct))) :=
  ⟨by with_unfolding_all decide,
   c1_commits_computed_state ratOracle 4 basePool (1/4000) 0 cEvt false (1/40) false
     (getOk (Swap ratOracle 4 basePool (1/4000) 0 cEvt none none none false (1/40) false))
     (getWs (Swap ratOracle 4 basePool (1/4000) 0 cEvt none none none false (1/40) false))
     (by with_unfolding_all decide)⟩

/-- Instance of `c5_positions_stay_nonnegative` at a concrete store,
including the clamp conjunct for a `Burn` of 9 units against a position
holding 5. -/
theorem c5_witness :
    allNonneg twoPool.positions = true ∧ (0 : ℚ) ≤ 2 ∧
    allNonneg (getOk (Burn twoPool (-2) 2 9 0 0 "s" cEvt 1)).positions = true ∧
    Warn.burnNegClamp ∈ getWs (Burn twoPool (-2) 2 9 0 0 "s" cEvt 1) ∧
    ∃ q2, (getOk (Burn twoPool (-2) 2 9 0 0 "s" cEvt 1)).positions[0]? = some q2 ∧
      q2.last_L = 0 := by
  have H := c5_positions_stay_nonnegative ratOracle 4 twoPool (-2) 2 2 9 0 0 "s" cEvt 1
      none none none none false false false (1/40) none
      (by with_unfolding_all decide) (by norm_num)
  refine ⟨by with_unfolding_all decide, by norm_num, ?_, ?_, ?_⟩
  · exact H.2.2.2.1 (getOk (Burn twoPool (-2) 2 9 0 0 "s" cEvt 1))
      (getWs (Burn twoPool (-2) 2 9 0 0 "s" cEvt 1)) (by with_unfolding_all decide)
  · exact (H.2.2.2.2.2.2.2.2 (getOk (Burn twoPool (-2) 2 9 0 0 "s" cEvt 1))
      (getWs (Burn twoPool (-2) 2 9 0 0 "s" cEvt 1)) 0 basePos (by with_unfolding_all decide)
      (by with_unfolding_all decide) (by with_unfolding_all decide)
      (by with_unfolding_all decide)).1
  · exact (H.2.2.2.2.2.2.2.2 (getOk (Burn twoPool (-2) 2 9 0 0 "s" cEvt 1))
      (getWs (Burn twoPool (-2) 2 9 0 0 "s" cEvt 1)) 0 basePos (by with_unfolding_all decide)
      (by with_unfolding_all decide) (by with_unfolding_all decide)
      (by with_unfolding_all decide)).2

end CL
